import Mathlib

/-!
# strongo/dalgo: keys, records, insert-with-retry, bulk readers, queries and
transaction contexts

A shallow embedding of the Go sources `dal/key.go`, `dal/record.go`,
`dal/inserter.go`, `dal/query_select_funcs.go`, `dal/query.go`,
`dal/query_struct.go` and `gaedb/database.go`, followed by theorems about them.

Conventions of the embedding:

* a Go `error` is `Option GoError` (`none` is the nil error);
* a Go `panic` is the `panicked` outcome of `Ret`;
* a Go `int` is an `Int`; `math.MaxInt` is the 64-bit value `2^63 - 1`, and loop
  counters are not reduced modulo `2^64` (a counter would have to pass
  `2^63 - 1` iterations to wrap);
* callbacks and readers are Go closures and interface values with hidden mutable
  state: they are state transformers over an arbitrary state type.
-/

namespace Dalgo

/-! ## Errors -/

/-- A Go error value. `sentinel` is a package-level variable initialised with
`errors.New` (compared by identity), `new` is an error made on the spot by
`errors.New` or by `fmt.Errorf` without `%w`, and `wrap msg cause` is
`fmt.Errorf(msg + ": %w", cause)`. -/
inductive GoError where
  | sentinel (name : String)
  | new (msg : String)
  | wrap (msg : String) (cause : GoError)
deriving DecidableEq, Repr

/-- Modelled from the spec: the `NoError` marker that `record.SetError(nil)` stores
("a distinguished no error marker compared by reference"); its declaration is
not among the sources. -/
def NoError : GoError := .sentinel "NoError"

/-- Modelled from the spec: the record-not-found sentinel ("record-not-found
(distinguished sentinel)"), named `ErrRecordNotFound` by the tests; its
declaration is not among the sources. -/
def ErrRecordNotFound : GoError := .sentinel "ErrRecordNotFound"

/-- Modelled from the spec: the reader-exhausted sentinel `ErrNoMoreRecords`
("a dedicated no more results signal"); its declaration is not among the
sources. -/
def ErrNoMoreRecords : GoError := .sentinel "ErrNoMoreRecords"

/-- Go `errors.Unwrap`. -/
def GoError.Unwrap : GoError → Option GoError
  | .wrap _ cause => some cause
  | _ => none

/-- Go `errors.Is(err, target)` for a non-nil `err`: `target` is `err` itself or
is reached by unwrapping. -/
def errorsIs : GoError → GoError → Bool
  | .sentinel n, target => GoError.sentinel n == target
  | .new m, target => GoError.new m == target
  | .wrap m cause, target => GoError.wrap m cause == target || errorsIs cause target

/-- Modelled from the spec: `IsNotFound(err)`, the "is-not-found predicate" that
matches the not-found sentinel through the cause chain; false on the nil error.
Its declaration is not among the sources. -/
def IsNotFound : Option GoError → Bool
  | none => false
  | some e => errorsIs e ErrRecordNotFound

/-- The outcome of a Go call that may panic. -/
inductive Ret (α : Type) where
  | ret (a : α)
  | panicked (msg : String)
deriving DecidableEq, Repr

/-! ## Keys (`dal/key.go`) -/

/-- A Go `interface{}` payload value; `nil` is the nil interface. -/
inductive Any where
  | nil
  | str (s : String)
  | int (n : Int)
  | bool (b : Bool)
deriving DecidableEq, Repr

/-- `type FieldVal struct { Name string; Value interface{} }`. -/
structure FieldVal where
  Name : String
  Value : Any
deriving DecidableEq, Repr

/-- The dynamic value of `Key.ID` (an `interface{}`): nil, a string, an int, a
`[]FieldVal`, or a value of some other type that has its own
`Validate() error` method, represented by what that method returns. -/
inductive IDValue where
  | nil
  | str (s : String)
  | int (n : Int)
  | fields (fs : List FieldVal)
  | validatable (result : Option GoError)
deriving DecidableEq, Repr

/-- `type Key struct { parent *Key; kind string; ID interface{} }`: `root` is a
key whose `parent` is nil, `child p` one whose `parent` points to `p`. -/
inductive Key where
  | root (kind : String) (ID : IDValue)
  | child (parent : Key) (kind : String) (ID : IDValue)
deriving DecidableEq, Repr

/-- Field `kind`. -/
def Key.kind : Key → String
  | .root k _ => k
  | .child _ k _ => k

/-- Field `ID`. -/
def Key.ID : Key → IDValue
  | .root _ i => i
  | .child _ _ i => i

/-- `func (v Key) Parent() *Key`. -/
def Key.Parent : Key → Option Key
  | .root _ _ => none
  | .child p _ _ => some p

/-- Go `unicode.IsSpace`. -/
def isSpace (c : Char) : Bool :=
  c = '\t' || c = '\n' || c.val = 0x0B || c.val = 0x0C || c = '\r' || c = ' '
    || c.val = 0x85 || c.val = 0xA0 || c.val = 0x1680
    || (0x2000 ≤ c.val && c.val ≤ 0x200A)
    || c.val = 0x2028 || c.val = 0x2029 || c.val = 0x202F || c.val = 0x205F
    || c.val = 0x3000

/-- Go `strings.TrimSpace`: leading and trailing white space removed. -/
def TrimSpace (s : String) : String :=
  String.mk ((s.data.dropWhile isSpace).reverse.dropWhile isSpace).reverse

/-- `func (v FieldVal) Validate() error`. -/
def FieldVal.Validate (v : FieldVal) : Option GoError :=
  if TrimSpace v.Name = "" then
    some (.new "name is a required property")
  else if v.Value = Any.nil then
    some (.new "Value is a required property")
  else
    none

/-- The loop `for i, field := range fields` of `Key.Validate`, from index `i`
on: the first invalid field, wrapped with its index. -/
def validateFields : Nat → List FieldVal → Option GoError
  | _, [] => none
  | i, field :: rest =>
    match field.Validate with
    | some err =>
      some (.wrap ("child is referencing invalid field # " ++ toString i) err)
    | none => validateFields (i + 1) rest

/-- The part of `Key.Validate` that looks at the `ID` (lines 77-87). -/
def validateID : IDValue → Option GoError
  | .fields fs =>
    match validateFields 0 fs with
    | some err => some err
    | none => none
  | .validatable result => result
  | _ => none

/-- `func (v Key) Validate() error`. -/
def Key.Validate : Key → Option GoError
  | .root kind id =>
    if TrimSpace kind = "" then some (.new "child must have 'kind'")
    else validateID id
  | .child parent kind _ =>
    if TrimSpace kind = "" then some (.new "child must have 'kind'")
    else parent.Validate

/-- The keys of a chain: the key itself and every ancestor. -/
def Key.chain : Key → List Key
  | .root kind id => [.root kind id]
  | .child parent kind id => .child parent kind id :: parent.chain

/-- The root of a key chain. -/
def Key.rootOf : Key → Key
  | .root kind id => .root kind id
  | .child parent _ _ => parent.rootOf

/-- A kind is blank when nothing is left after trimming white space. -/
def blank (s : String) : Bool := TrimSpace s = ""

/-- A `FieldVal` with a blank name or a nil value. -/
def FieldVal.bad (v : FieldVal) : Bool := blank v.Name || v.Value = Any.nil

/-- The `FieldVal`s of a field-list identifier (none for any other identifier). -/
def IDValue.fieldVals : IDValue → List FieldVal
  | .fields fs => fs
  | _ => []

/-- No `ID` in the chain has a `Validate` method of its own. -/
def Key.plainIDs (k : Key) : Bool :=
  k.chain.all fun a => match a.ID with
    | .validatable _ => false
    | _ => true

/-- What the specification asks of a key chain: some kind is blank, or some
`FieldVal` of some key of the chain is bad. -/
def Key.specInvalid (k : Key) : Bool :=
  k.chain.any (fun a => blank a.kind) ||
    k.chain.any (fun a => a.ID.fieldVals.any FieldVal.bad)

/-! ## Records (`dal/record.go`) -/

/-- `type record struct { key *Key; err error; changed bool; data any }`. -/
structure record where
  key : Option Key
  err : Option GoError
  changed : Bool
  data : Any
deriving DecidableEq, Repr

/-- The message of the panic in `record.Exists`. -/
def existsPanic : String :=
  "an attempt to check if record exists before it was retrieved from database and SetError(error) called"

/-- The message of the panic in `record.Data`. -/
def dataPanic : String := "an attempt to retrieve data from a record with an error"

/-- `func (v *record) Exists() bool`. -/
def record.Exists (v : record) : Ret Bool :=
  match v.err with
  | some e =>
    if IsNotFound (some e) then .ret false
    else if e = NoError then .ret true
    else .panicked existsPanic
  | none => .panicked existsPanic

/-- `func (v *record) Key() *Key`. -/
def record.Key (v : record) : Option Key := v.key

/-- `func (v *record) HasChanged() bool`. -/
def record.HasChanged (v : record) : Bool := v.changed

/-- `func (v *record) MarkAsChanged()`. -/
def record.MarkAsChanged (v : record) : record := { v with changed := true }

/-- `func (v *record) Data() any`; the panic for a record that was never
populated is commented out in the source, so that case falls through to
`return v.data`. -/
def record.Data (v : record) : Ret Any :=
  match v.err with
  | some e =>
    if e = NoError then .ret v.data
    else if !IsNotFound (some e) then .panicked dataPanic
    else .ret v.data
  | none => .ret v.data

/-- `func (v *record) Error() error`. -/
def record.Error (v : record) : Option GoError :=
  if v.err = some NoError || IsNotFound v.err then none else v.err

/-- `func (v *record) SetError(err error)`. -/
def record.SetError (v : record) (err : Option GoError) : record :=
  match err with
  | none => { v with err := some NoError }
  | some e => { v with err := some e }

/-- `func newRecord(key *Key) *record`. -/
def newRecord (key : Option Key) : Ret record :=
  match key with
  | none => .panicked "parameter 'key' is required for dalgo.NewRecord()"
  | some k =>
    match k.Validate with
    | some _ => .panicked "invalid key"
    | none => .ret { key := some k, err := none, changed := false, data := Any.nil }

/-- `func NewRecord(key *Key) Record`. -/
def NewRecord (key : Option Key) : Ret record := newRecord key

/-- `func NewRecordWithData(key *Key, data any) Record`. -/
def NewRecordWithData (key : Option Key) (data : Any) : Ret record :=
  match newRecord key with
  | .ret r => .ret { r with data := data }
  | .panicked msg => .panicked msg

/-- `func NewRecordWithoutKey(data any) Record`. -/
def NewRecordWithoutKey (data : Any) : record :=
  { key := none, err := none, changed := false, data := data }

/-- A record is Unpopulated while `SetError` has never been called on it: its
error slot is still nil. -/
def record.Unpopulated (v : record) : Prop := v.err = none

/-! ## Insert with retry (`dal/inserter.go`) -/

/-- The three callbacks of `InsertWithRandomID`. They are Go closures: each call
returns an error and may change the state `σ` they close over. The arguments
`c`, `tmp` and `key` are references that stay the same for the whole call (the
key cell that `tmp` shares with `r` lives in `σ`); `insert` is handed `r`. -/
structure Callbacks (σ : Type) where
  generateID : σ → Option GoError × σ
  exists_ : σ → Option GoError × σ
  insert : record → σ → Option GoError × σ

/-- A call made by `InsertWithRandomID`. -/
inductive Call where
  | generateID
  | exists_
  | insert (r : record)
deriving DecidableEq, Repr

/-- What `InsertWithRandomID` leaves behind: the returned error, the state of the
callbacks and the calls made, in order. -/
structure InsertRun (σ : Type) where
  err : Option GoError
  state : σ
  calls : List Call

/-- `fmt.Errorf("not able to generate unique Value in %v attempts", attempts)`. -/
def errExhausted (attempts : Int) : GoError :=
  .new ("not able to generate unique Value in " ++ toString attempts ++ " attempts")

/-- The loop `for i := 1; i <= attempts; i++` of `InsertWithRandomID` with `n`
values of `i` still to come, followed by the final `return`. -/
def insertAttempts {σ : Type} (cb : Callbacks σ) (r : record) (attempts : Int) :
    Nat → σ → List Call → InsertRun σ
  | 0, s, calls => ⟨some (errExhausted attempts), s, calls⟩
  | n + 1, s, calls =>
    let g := cb.generateID s
    match g.1 with
    | some err =>
      ⟨some (.wrap "failed to generate random value" err), g.2, calls ++ [.generateID]⟩
    | none =>
      let x := cb.exists_ g.2
      match x.1 with
      | none => insertAttempts cb r attempts n x.2 (calls ++ [.generateID, .exists_])
      | some err =>
        if IsNotFound (some err) then
          let i := cb.insert r x.2
          ⟨i.1, i.2, calls ++ [.generateID, .exists_, .insert r]⟩
        else
          ⟨some (.wrap "failed to check if record exists" err), x.2,
            calls ++ [.generateID, .exists_]⟩

/-- `func InsertWithRandomID(c, r, generateID, attempts, exists, insert) error`,
started with the callbacks in state `s`. -/
def InsertWithRandomID {σ : Type} (cb : Callbacks σ) (r : record) (attempts : Int)
    (s : σ) : InsertRun σ :=
  insertAttempts cb r attempts attempts.toNat s []

/-- The state of the callbacks after `j` attempts that each ran the generator
and then the existence check. -/
def afterAttempts {σ : Type} (cb : Callbacks σ) : Nat → σ → σ
  | 0, s => s
  | j + 1, s => afterAttempts cb j (cb.exists_ (cb.generateID s).2).2

/-- What the generator returns on attempt `j + 1`. -/
def genResult {σ : Type} (cb : Callbacks σ) (s : σ) (j : Nat) : Option GoError :=
  (cb.generateID (afterAttempts cb j s)).1

/-- What the existence check returns on attempt `j + 1`. -/
def existsResult {σ : Type} (cb : Callbacks σ) (s : σ) (j : Nat) : Option GoError :=
  (cb.exists_ (cb.generateID (afterAttempts cb j s)).2).1

/-- Whether a call is a call of `insert`. -/
def Call.isInsert : Call → Bool
  | .insert _ => true
  | _ => false

/-- The calls of `j` attempts that each ran the generator and the check. -/
def attemptCalls : Nat → List Call
  | 0 => []
  | j + 1 => [Call.generateID, Call.exists_] ++ attemptCalls j

/-- The four ways in which `insertAttempts`, started in state `s` with `m`
attempts allowed and `calls` already made, can end after `j` attempts that each
ran the generator and found the identifier taken: the attempts are used up; the
generator fails on the next attempt; the existence check fails on it with an
error other than not-found; or the check reports not-found and `insert(r)` is
called. -/
def InsertOutcome {σ : Type} (cb : Callbacks σ) (r : record) (attempts : Int) (m : Nat)
    (s : σ) (calls : List Call) (j : Nat) (run : InsertRun σ) : Prop :=
  (j = m ∧ run.err = some (errExhausted attempts) ∧ run.state = afterAttempts cb j s ∧
      run.calls = calls ++ attemptCalls j) ∨
    (j < m ∧ ∃ e, genResult cb s j = some e ∧
      run.err = some (GoError.wrap "failed to generate random value" e) ∧
      run.state = (cb.generateID (afterAttempts cb j s)).2 ∧
      run.calls = calls ++ attemptCalls j ++ [Call.generateID]) ∨
    (j < m ∧ genResult cb s j = none ∧ ∃ e, existsResult cb s j = some e ∧
      IsNotFound (some e) = false ∧
      run.err = some (GoError.wrap "failed to check if record exists" e) ∧
      run.state = (cb.exists_ (cb.generateID (afterAttempts cb j s)).2).2 ∧
      run.calls = calls ++ attemptCalls j ++ [Call.generateID, Call.exists_]) ∨
    (j < m ∧ genResult cb s j = none ∧ ∃ e, existsResult cb s j = some e ∧
      IsNotFound (some e) = true ∧
      run.err = (cb.insert r (cb.exists_ (cb.generateID (afterAttempts cb j s)).2).2).1 ∧
      run.state = (cb.insert r (cb.exists_ (cb.generateID (afterAttempts cb j s)).2).2).2 ∧
      run.calls = calls ++ attemptCalls j ++ [Call.generateID, Call.exists_, Call.insert r])

/-! ## Bulk readers (`dal/query_select_funcs.go`) -/

/-- A value of the interface type `Record`; `none` is the nil interface. -/
abbrev Record := Option record

/-- Modelled from the spec: the `Reader` interface of package `dal`, a pull
iterator with `Next() (Record, error)` and `Close() error`; its declaration is
not among the sources. A reader is an object with hidden state `ρ`. -/
structure Reader (ρ : Type) where
  Next : ρ → (Record × Option GoError) × ρ
  Close : ρ → Option GoError × ρ

/-- A call made on a reader. -/
inductive ReaderCall where
  | Next
  | Close
deriving DecidableEq, Repr

/-- What a bulk helper leaves behind: what it returned (or that it panicked), the
state of the reader and the calls made on the reader, in order. -/
structure Run (ρ α : Type) where
  out : Ret α
  state : ρ
  calls : List ReaderCall

/-- `math.MaxInt` on a 64-bit platform. -/
def MaxInt : Int := 9223372036854775807

/-- The limit after the prelude `if limit >= 0 { ... } else { limit = math.MaxInt }`
shared by `SelectAllIDs` and `SelectAllRecords`. -/
def adjustLimit (limit : Int) : Int := if limit ≥ 0 then limit else MaxInt

/-- The error a bulk helper returns when `Next` fails with `err`:
`if errors.Is(err, ErrNoMoreRecords) { err = nil }; return`. -/
def nextError (err : GoError) : Option GoError :=
  if errorsIs err ErrNoMoreRecords then none else some err

/-- The type assertion `id.(string)`. -/
def IDValue.asString : IDValue → Option String
  | .str s => some s
  | _ => none

/-- The type assertion `id.(int)`. -/
def IDValue.asInt : IDValue → Option Int
  | .int n => some n
  | _ => none

/-- The expression `record.Key().ID.(T)`: it panics on a nil record, on a nil key and
on an `ID` that is not a `T`; `asT` is the type assertion `.(T)`. -/
def recordID {τ : Type} (asT : IDValue → Option τ) (rec : Record) : Ret τ :=
  match rec with
  | none => .panicked "invalid memory address or nil pointer dereference"
  | some r =>
    match r.Key with
    | none => .panicked "invalid memory address or nil pointer dereference"
    | some key =>
      match asT key.ID with
      | none => .panicked "interface conversion"
      | some id => .ret id

/-- The loop `for ; limit > 0; limit--` of `SelectAllIDs` with `limit` iterations
still allowed, followed by `return ids, reader.Close()`. -/
def selectAllIDsLoop {ρ τ : Type} (reader : Reader ρ) (asT : IDValue → Option τ) :
    Nat → ρ → List τ → List ReaderCall → Run ρ (List τ × Option GoError)
  | 0, s, ids, calls =>
    let c := reader.Close s
    ⟨.ret (ids, c.1), c.2, calls ++ [.Close]⟩
  | limit + 1, s, ids, calls =>
    let n := reader.Next s
    match n.1.2 with
    | some err => ⟨.ret (ids, nextError err), n.2, calls ++ [.Next]⟩
    | none =>
      match recordID asT n.1.1 with
      | .panicked msg => ⟨.panicked msg, n.2, calls ++ [.Next]⟩
      | .ret id => selectAllIDsLoop reader asT limit n.2 (ids ++ [id]) (calls ++ [.Next])

/-- `func SelectAllIDs[T comparable](reader Reader, limit int) (ids []T, err error)`
on a reader in state `s`; `asT` is the type assertion `.(T)`. -/
def SelectAllIDs {ρ τ : Type} (asT : IDValue → Option τ) (reader : Option (Reader ρ))
    (limit : Int) (s : ρ) : Run ρ (List τ × Option GoError) :=
  match reader with
  | none => ⟨.panicked "reader is a required parameter, got nil", s, []⟩
  | some rd => selectAllIDsLoop rd asT (adjustLimit limit).toNat s [] []

/-- The loop `for i := 0; limit <= 0 || i < limit; i++` of `SelectAllRecords`,
followed by `return records, reader.Close()`. With `limit = 0` the loop has no
bound of its own, so the model runs on fuel: `none` means the fuel ran out. -/
def selectAllRecordsLoop {ρ : Type} (reader : Reader ρ) (limit : Int) :
    Nat → Int → ρ → List Record → List ReaderCall →
      Option (Run ρ (List Record × Option GoError))
  | 0, _, _, _, _ => none
  | fuel + 1, i, s, records, calls =>
    if limit ≤ 0 ∨ i < limit then
      let n := reader.Next s
      match n.1.2 with
      | some err => some ⟨.ret (records, nextError err), n.2, calls ++ [.Next]⟩
      | none =>
        selectAllRecordsLoop reader limit fuel (i + 1) n.2 (records ++ [n.1.1])
          (calls ++ [.Next])
    else
      let c := reader.Close s
      some ⟨.ret (records, c.1), c.2, calls ++ [.Close]⟩

/-- `func SelectAllRecords(reader Reader, limit int) (records []Record, err error)`
on a reader in state `s`, run on `fuel` loop steps. -/
def SelectAllRecords {ρ : Type} (fuel : Nat) (reader : Option (Reader ρ)) (limit : Int)
    (s : ρ) : Option (Run ρ (List Record × Option GoError)) :=
  match reader with
  | none => some ⟨.panicked "reader is a required parameter, got nil", s, []⟩
  | some rd => selectAllRecordsLoop rd (adjustLimit limit) fuel 0 s [] []

/-- The reader in state `s` yields the records `rs`, one per call of `Next` and
each with a nil error, and its next call of `Next` fails with `err`. -/
def Yields {ρ : Type} (reader : Reader ρ) : ρ → List Record → GoError → Prop
  | s, [], err => (reader.Next s).1.2 = some err
  | s, r :: rs, err =>
    (reader.Next s).1 = (r, none) ∧ Yields reader (reader.Next s).2 rs err

/-- The state of a reader after `j` calls of `Next`. -/
def afterNexts {ρ : Type} (reader : Reader ρ) : Nat → ρ → ρ
  | 0, s => s
  | j + 1, s => afterNexts reader j (reader.Next s).2

/-- A reader that replays a script: it yields the records of `rs` in order, then
fails with `final` on every later call; `Close` returns `closeErr`. Its state is
the number of `Next` calls made. -/
def scriptReader (rs : List Record) (final : GoError) (closeErr : Option GoError) :
    Reader Nat where
  Next := fun i => match rs.get? i with
    | some r => ((r, none), i + 1)
    | none => ((none, some final), i + 1)
  Close := fun i => (closeErr, i)

/-! ## `ReadAll` (`dal/query.go`) -/

/-- `math.MaxInt64`. -/
def MaxInt64 : Int := 9223372036854775807

/-- The loop `for i := 0; i < limit; i++` of `ReadAll` with `n` iterations still
allowed by its condition, followed by `return records, err`. `err` is the named
result, which holds what the last call of `Next` returned. -/
def readAllLoop {ρ : Type} (reader : Reader ρ) (limit : Int) :
    Nat → Int → ρ → List Record → Option GoError → List ReaderCall →
      Run ρ (List Record × Option GoError)
  | 0, _, s, records, err, calls => ⟨.ret (records, err), s, calls⟩
  | n + 1, i, s, records, err, calls =>
    if i ≥ limit then
      ⟨.ret (records, err), s, calls⟩
    else
      let x := reader.Next s
      match x.1.2 with
      | some e =>
        if e = ErrNoMoreRecords then
          ⟨.ret (records, some e), x.2, calls ++ [.Next]⟩
        else
          readAllLoop reader limit n (i + 1) x.2 (records ++ [x.1.1]) (some e)
            (calls ++ [.Next])
      | none => readAllLoop reader limit n (i + 1) x.2 records none (calls ++ [.Next])

/-- `func ReadAll(_ context.Context, reader Reader, limit int) (records []Record, err error)`
on a reader in state `s`. -/
def ReadAll {ρ : Type} (reader : Reader ρ) (limit : Int) (s : ρ) :
    Run ρ (List Record × Option GoError) :=
  let limit := if limit ≤ 0 then MaxInt64 else limit
  readAllLoop reader limit limit.toNat 0 s [] none []

/-! ## Key paths (`dal/key.go`) -/

/-- Go `strings.Join(elems, sep)`. -/
def Join : List String → String → String
  | [], _ => ""
  | [s], _ => s
  | s :: t :: rest, sep => s ++ sep ++ Join (t :: rest) sep

/-- The concatenation of a list of strings. -/
def Concat : List String → String
  | [] => ""
  | s :: rest => s ++ Concat rest

/-- Modelled from the spec: the helper `ReverseStringsJoin(elems, sep)`, which
joins the elements in reverse order ("collecting pairs and reversing, joined by
`/`"); its declaration is not among the sources. -/
def ReverseStringsJoin (elems : List String) (sep : String) : String :=
  Join elems.reverse sep

/-- Go `fmt.Sprintf("%v", v)` for a payload value. -/
def SprintAny : Any → String
  | .nil => "<nil>"
  | .str s => s
  | .int n => toString n
  | .bool b => toString b

/-- Go `fmt.Sprintf("%v", id)` for an identifier that is nil, a string, an int or
a `[]FieldVal`; the text of a value of another type is whatever `other` says. -/
def SprintID (other : String) : IDValue → String
  | .nil => "<nil>"
  | .str s => s
  | .int n => toString n
  | .fields fs =>
    "[" ++ Join (fs.map fun f => "\x7b" ++ f.Name ++ " " ++ SprintAny f.Value ++ "\x7d") " "
      ++ "]"
  | .validatable _ => other

/-- The loop of `Key.String` that walks from the key to the root and appends the
text of the `ID` and the kind of every key to `s`; `sprint` is
`fmt.Sprintf("%v", ·)`. -/
def Key.pathLoop (sprint : IDValue → String) : Key → List String → List String
  | .root kind id, s => s ++ [sprint id] ++ [kind]
  | .child parent kind id, s => parent.pathLoop sprint (s ++ [sprint id] ++ [kind])

/-- The path the specification describes: the kind and the identifier of every
key from the root down to the key itself. -/
def Key.specPath (sprint : IDValue → String) : Key → List String
  | .root kind id => [kind, sprint id]
  | .child parent kind id => parent.specPath sprint ++ [kind, sprint id]

/-- `func (v Key) String() string`; `sprint` is `fmt.Sprintf("%v", ·)`. -/
def Key.String (sprint : IDValue → String) (v : Key) : Ret String :=
  match v.Validate with
  | some _ => .panicked "will not generate path for invalid child"
  | none => .ret (ReverseStringsJoin (v.pathLoop sprint []) "/")

/-- `func (v Key) Level() int`. -/
def Key.Level : Key → Int
  | .root _ _ => 0
  | .child parent _ _ => parent.Level + 1

/-! ## Record states -/

/-- The load state of a record, as the specification names it. -/
inductive LoadState where
  | Unpopulated
  | Found
  | NotFound
  | Errored
deriving DecidableEq, Repr

/-- The load state a record is in, read off its error slot: nil is Unpopulated,
`NoError` is Found, a not-found error is NotFound, any other error is
Errored. -/
def record.state (v : record) : LoadState :=
  match v.err with
  | none => .Unpopulated
  | some e =>
    if e = NoError then .Found
    else if IsNotFound (some e) then .NotFound
    else .Errored

/-- An operation on a record: `SetError(err)`, `MarkAsChanged()` or one of the
read accessors. -/
inductive RecordOp where
  | SetError (err : Option GoError)
  | MarkAsChanged
  | Key
  | Error
  | Exists
  | Data
  | HasChanged
deriving DecidableEq, Repr

/-- The record after an operation; the read accessors write no field. -/
def record.apply (v : record) : RecordOp → record
  | .SetError err => v.SetError err
  | .MarkAsChanged => v.MarkAsChanged
  | _ => v

/-- The record after a sequence of operations. -/
def record.applyAll (v : record) (ops : List RecordOp) : record :=
  ops.foldl record.apply v

/-! ## Queries (`dal/query.go`, `dal/query_struct.go`) -/

/-- `type CollectionRef struct { Name string; Parent *Key }`. -/
structure CollectionRef where
  Name : String
  Parent : Option Key
deriving DecidableEq, Repr

/-- `func (v CollectionRef) Path() string`; `sprint` is `fmt.Sprintf("%v", ·)`. -/
def CollectionRef.Path (sprint : IDValue → String) (v : CollectionRef) : Ret String :=
  match v.Parent with
  | none => .ret v.Name
  | some parent =>
    match parent.String sprint with
    | .ret p => .ret (p ++ "/" ++ v.Name)
    | .panicked msg => .panicked msg

/-- `type Operator string`. -/
abbrev Operator := String

/-- Modelled from the spec: the operator constant `And` ("operator: AND|OR"); its
declaration is not among the sources. -/
def Operator.And : Operator := "AND"

/-- Modelled from the spec: the operator constant `Or` ("operator: AND|OR"); its
declaration is not among the sources. -/
def Operator.Or : Operator := "OR"

/-- Modelled from the spec: a value of one of the interfaces `Column`,
`Expression` and `OrderExpression`, whose declarations are not among the
sources; it is given by the text its `String()` method returns. -/
structure Expression where
  text : String
deriving DecidableEq, Repr

/-- A value of the interface `Condition`: `nil` is the nil interface,
`GroupCondition` is the struct `groupCondition` of `query.go` (`GroupCondition`
in `query_struct.go`), `other` is any further implementation, given by the text
its `String()` returns. Modelled from the spec: `Comparison`, the leaf
"field, operator, value", whose declaration is not among the sources. -/
inductive Condition where
  | nil
  | Comparison (field operator value : String)
  | GroupCondition (operator : Operator) (conditions : List Condition)
  | other (text : String)
deriving Repr

/-- Whether a condition is the nil interface: `q.where == nil`. -/
def Condition.isNil : Condition → Bool
  | .nil => true
  | _ => false

/-- The test `reflect.TypeOf(q.where) == reflect.TypeOf(Comparison{})`. -/
def Condition.isComparison : Condition → Bool
  | .Comparison _ _ _ => true
  | _ => false

mutual
/-- The method `String()` of a condition. For a group it is
`func (v groupCondition) String() string` of `query.go`; calling it on the nil
interface panics. Modelled from the spec: the text of a `Comparison`,
"`field operator value`", and the method of the type `GroupCondition` that
`query_struct.go` uses, "`(c1<op>c2<op>...cn)`", the same text as
`groupCondition.String`; their declarations are not among the sources. -/
def Condition.String : Condition → Ret String
  | .nil => .panicked "invalid memory address or nil pointer dereference"
  | .Comparison field operator value => .ret (field ++ " " ++ operator ++ " " ++ value)
  | .GroupCondition operator conditions =>
    match conditionStrings conditions with
    | .ret s => .ret ("(" ++ Join s operator ++ ")")
    | .panicked msg => .panicked msg
  | .other text => .ret text
/-- The loop `for i, condition := range v.Conditions { s[i] = condition.String() }`. -/
def conditionStrings : List Condition → Ret (List String)
  | [] => .ret []
  | condition :: rest =>
    match condition.String with
    | .panicked msg => .panicked msg
    | .ret s =>
      match conditionStrings rest with
      | .panicked msg => .panicked msg
      | .ret ss => .ret (s :: ss)
end

/-- Modelled from the spec: the type `Cursor` ("startCursor: optional Cursor"); its
declaration is not among the sources. -/
abbrev Cursor := Option String

/-- `type theQuery struct` of `query_struct.go`. `into` is a `func() Record`, given
by the record it makes (`none` is the nil func); `idKind` is a `reflect.Kind`. -/
structure theQuery where
  from_ : Option CollectionRef
  where_ : Condition
  groupBy : List Expression
  orderBy : List Expression
  columns : List Expression
  into : Option record
  offset : Int
  limit : Int
  idKind : Nat
  startCursor : Cursor

/-- `type Select struct` of `query.go`. -/
structure Select where
  From : Option CollectionRef
  Where : Condition
  GroupBy : List Expression
  OrderBy : List Expression
  Columns : List Expression
  Into : Option record
  Limit : Int

/-- Go `strconv.Itoa`. -/
def Itoa (n : Int) : String := toString n

/-- The statements `writer.WriteString("SELECT")` and
`if limit > 0 { writer.WriteString(" TOP " + strconv.Itoa(limit)) }`. -/
def writeSelectTop (limit : Int) : String :=
  let w := "SELECT"
  if limit > 0 then w ++ (" TOP " ++ Itoa limit) else w

/-- The statement `switch len(columns)` of both renderers, writing to `w`. -/
def writeColumns (w : String) : List Expression → String
  | [] => w ++ " *"
  | [col] => w ++ " " ++ col.text
  | cols => cols.foldl (fun w col => w ++ "\n\t" ++ col.text) w

/-- The value `is1liner` of both renderers. -/
def is1liner (columns : List Expression) (where_ : Condition) : Bool :=
  decide (columns.length ≤ 1) && (where_.isNil || where_.isComparison)

/-- The statement `if from != nil { ... }` of both renderers, writing to `w`. -/
def writeFrom (sprint : IDValue → String) (oneLiner : Bool) (w : String) :
    Option CollectionRef → Ret String
  | none => .ret w
  | some ref =>
    let w := if oneLiner then w ++ " " else w ++ "\n"
    match ref.Path sprint with
    | .ret path => .ret (w ++ ("FROM [" ++ path ++ "]"))
    | .panicked msg => .panicked msg

/-- The statement `if where != nil { ... }` of both renderers, writing to `w`. -/
def writeWhere (oneLiner : Bool) (w : String) (where_ : Condition) : Ret String :=
  if where_.isNil then .ret w
  else
    let w := if oneLiner then w ++ " " else w ++ "\n"
    match where_.String with
    | .ret text => .ret (w ++ ("WHERE " ++ text))
    | .panicked msg => .panicked msg

/-- The loop `for i, expr := range exprs { if i > 0 { ", " }; expr.String() }` of
`theQuery.String`, from index `i` on, writing to `w`. -/
def writeCommaSeparated : String → Nat → List Expression → String
  | w, _, [] => w
  | w, i, expr :: rest =>
    let w := if i > 0 then w ++ ", " else w
    writeCommaSeparated (w ++ expr.text) (i + 1) rest

/-- The statement `if len(q.orderBy) > 0 { ... }` of `theQuery.String`. -/
def writeOrderBy (w : String) (orderBy : List Expression) : String :=
  if orderBy.length > 0 then writeCommaSeparated (w ++ "\nORDER BY ") 0 orderBy else w

/-- The statement `if len(q.groupBy) > 0 { ... }` of `theQuery.String`. -/
def writeGroupBy (w : String) (groupBy : List Expression) : String :=
  if groupBy.length > 0 then writeCommaSeparated (w ++ "\nGROUP BY ") 0 groupBy else w

/-- The statement `if len(q.GroupBy) > 0 { ... }` of `Select.String`, which puts
every expression on a line of its own. -/
def writeGroupByLines (w : String) (groupBy : List Expression) : String :=
  if groupBy.length > 0 then
    groupBy.foldl (fun w expr => w ++ "\n\t" ++ expr.text) (w ++ "\nGROUP BY ")
  else w

/-- `func (q theQuery) String() string`; `sprint` is `fmt.Sprintf("%v", ·)`. -/
def theQuery.String (sprint : IDValue → String) (q : theQuery) : Ret String :=
  let w := writeSelectTop q.limit
  let w := writeColumns w q.columns
  let oneLiner := is1liner q.columns q.where_
  match writeFrom sprint oneLiner w q.from_ with
  | .panicked msg => .panicked msg
  | .ret w =>
    match writeWhere oneLiner w q.where_ with
    | .panicked msg => .panicked msg
    | .ret w =>
      let w := writeOrderBy w q.orderBy
      let w := writeGroupBy w q.groupBy
      .ret w

/-- `func (q Select) String() string`; `sprint` is `fmt.Sprintf("%v", ·)`. -/
def Select.String (sprint : IDValue → String) (q : Select) : Ret String :=
  let w := writeSelectTop q.Limit
  let w := writeColumns w q.Columns
  let oneLiner := is1liner q.Columns q.Where
  match writeFrom sprint oneLiner w q.From with
  | .panicked msg => .panicked msg
  | .ret w =>
    match writeWhere oneLiner w q.Where with
    | .panicked msg => .panicked msg
    | .ret w =>
      let w := writeGroupByLines w q.GroupBy
      .ret w

/-- The loop `for i, condition := range conditions { and.conditions[i+1] = condition }`
of `groupWithConditions`, from index `i` on. -/
def fillConditions : List Condition → Nat → List Condition → List Condition
  | slots, _, [] => slots
  | slots, i, condition :: rest => fillConditions (slots.set (i + 1) condition) (i + 1) rest

/-- The slice that `groupWithConditions` builds: `make([]Condition, len(conditions)+1)`,
then slot 0 is set to the filter of the receiver and the other slots are
filled by the loop. -/
def groupSlots (where_ : Condition) (conditions : List Condition) : List Condition :=
  let slots := List.replicate (conditions.length + 1) Condition.nil
  let slots := slots.set 0 where_
  fillConditions slots 0 conditions

/-- `func (q theQuery) groupWithConditions(operator Operator, conditions ...Condition) theQuery`.
The receiver is passed by value; the new query starts as `theQuery{from: q.from}`,
every other field at its zero value. -/
def theQuery.groupWithConditions (q : theQuery) (operator : Operator)
    (conditions : List Condition) : theQuery :=
  let qry : theQuery :=
    { from_ := q.from_, where_ := Condition.nil, groupBy := [], orderBy := [],
      columns := [], into := none, offset := 0, limit := 0, idKind := 0,
      startCursor := none }
  let and := Condition.GroupCondition operator (groupSlots q.where_ conditions)
  { qry with where_ := and }

/-- `func (q theQuery) And(conditions ...Condition) theQuery`. -/
def theQuery.And (q : theQuery) (conditions : List Condition) : theQuery :=
  q.groupWithConditions Operator.And conditions

/-- `func (q theQuery) Or(conditions ...Condition) theQuery`. -/
def theQuery.Or (q : theQuery) (conditions : List Condition) : theQuery :=
  q.groupWithConditions Operator.Or conditions

/-- `func (q Select) groupWithConditions(operator query.Operator, conditions ...query.Condition) Select`.
The receiver is passed by value; the new query starts as `Select{From: q.From}`. -/
def Select.groupWithConditions (q : Select) (operator : Operator)
    (conditions : List Condition) : Select :=
  let qry : Select :=
    { From := q.From, Where := Condition.nil, GroupBy := [], OrderBy := [], Columns := [],
      Into := none, Limit := 0 }
  let and := Condition.GroupCondition operator (groupSlots q.Where conditions)
  { qry with Where := and }

/-- `func (q Select) And(conditions ...query.Condition) Select`. -/
def Select.And (q : Select) (conditions : List Condition) : Select :=
  q.groupWithConditions Operator.And conditions

/-- `func (q Select) Or(conditions ...query.Condition) Select`. -/
def Select.Or (q : Select) (conditions : List Condition) : Select :=
  q.groupWithConditions Operator.Or conditions

/-- The text that the clause `GROUP BY` of `Select.String` adds: nothing without
group expressions, else the keyword on a new line and every expression after a
newline and a tab. -/
def groupByLinesClause (groupBy : List Expression) : String :=
  match groupBy with
  | [] => ""
  | _ => "\nGROUP BY " ++ Concat (groupBy.map fun e => "\n\t" ++ e.text)

/-- The query description of a `Select` as a `theQuery`: the same source
collection, filter, columns, group and order expressions, result factory and
limit, and the zero value in the fields that `Select` does not have. -/
def Select.toTheQuery (q : Select) : theQuery :=
  { from_ := q.From, where_ := q.Where, groupBy := q.GroupBy, orderBy := q.OrderBy,
    columns := q.Columns, into := q.Into, offset := 0, limit := q.Limit, idKind := 0,
    startCursor := none }

/-! ### The layout in the words of the specification -/

/-- The one-liner condition of the specification: at most one column, and no
filter or a filter that is a bare `Comparison`. -/
def specOneLiner (columns : List Expression) (where_ : Condition) : Prop :=
  columns.length ≤ 1 ∧
    (where_ = Condition.nil ∨ ∃ field operator value, where_ = Condition.Comparison field operator value)

/-- `SELECT`, then ` TOP <limit>` if the limit is positive, then ` *` for no
column, the column after one space for one column, and otherwise every column
after a newline and a tab. -/
def specHead (limit : Int) (columns : List Expression) : String :=
  "SELECT" ++ (if limit > 0 then " TOP " ++ toString limit else "") ++
    (match columns with
      | [] => " *"
      | [col] => " " ++ col.text
      | cols => Concat (cols.map fun col => "\n\t" ++ col.text))

/-- The separator before `FROM` and `WHERE`: a space in the one-liner layout, a
newline otherwise. -/
def layoutSep (oneLiner : Bool) : String := if oneLiner then " " else "\n"

/-- The text that the clause `FROM` adds to the rendering when it is set off by
the separator `sep`: nothing without a source collection, else
`<sep>FROM [<collection-path>]`. -/
def fromClause (sprint : IDValue → String) (sep : String) : Option CollectionRef → Ret String
  | none => .ret ""
  | some ref =>
    match ref.Path sprint with
    | .ret path => .ret (sep ++ ("FROM [" ++ path ++ "]"))
    | .panicked msg => .panicked msg

/-- The text that the clause `WHERE` adds to the rendering when it is set off by
the separator `sep`: nothing without a filter, else `<sep>WHERE <filter.String()>`. -/
def whereClause (sep : String) (w : Condition) : Ret String :=
  match w with
  | .nil => .ret ""
  | c =>
    match c.String with
    | .ret text => .ret (sep ++ ("WHERE " ++ text))
    | .panicked msg => .panicked msg

/-- The clause `ORDER BY` of the specification: nothing without order expressions,
else the expressions joined by `, ` on a line of their own. -/
def specOrderBy (orderBy : List Expression) : String :=
  match orderBy with
  | [] => ""
  | _ => "\nORDER BY " ++ Join (orderBy.map fun e => e.text) ", "

/-- The clause `GROUP BY` of the specification: nothing without group expressions,
else the expressions joined by `, ` on a line of their own. -/
def specGroupBy (groupBy : List Expression) : String :=
  match groupBy with
  | [] => ""
  | _ => "\nGROUP BY " ++ Join (groupBy.map fun e => e.text) ", "

/-! ## Key options (`dal/key.go`, `dal/inserter.go`) -/

/-- `type KeyOption = func(*Key)` of `key.go`: what the option does to the key it
is given. -/
abbrev KeyOption := Key → Key

/-- The assignment `key.ID = id`. -/
def Key.setID : Key → IDValue → Key
  | .root kind _, id => .root kind id
  | .child parent kind _, id => .child parent kind id

/-- `func setKeyOptions(key *Key, options ...KeyOption)`: the loop
`for _, setOptions := range options { setOptions(key) }`. -/
def setKeyOptions : Key → List KeyOption → Key
  | key, [] => key
  | key, setOptions :: rest => setKeyOptions (setOptions key) rest

/-- `func NewKey(kind string, options ...KeyOption) (key *Key)`. -/
def NewKey (kind : String) (options : List KeyOption) : Ret Key :=
  if options.length = 0 then
    .panicked "at least 1 child option should be specified"
  else
    .ret (setKeyOptions (Key.root kind IDValue.nil) options)

/-- `func NewKeyWithID(kind string, id interface{}, options ...KeyOption) (key *Key)`. -/
def NewKeyWithID (kind : String) (id : IDValue) (options : List KeyOption) : Key :=
  setKeyOptions (Key.root kind id) options

/-- `func WithID(id interface{}) KeyOption`. -/
def WithID (id : IDValue) : KeyOption := fun key => key.setID id

/-- `func WithFields(fields []FieldVal) KeyOption`. -/
def WithFields (fields : List FieldVal) : KeyOption := fun key => key.setID (.fields fields)

/-- `type IDGenerator = func(ctx context.Context, record Record) error`: a Go
closure over a state `σ`. -/
abbrev IDGenerator (σ : Type) := record → σ → Option GoError × σ

/-- What applying the option of `WithIDGenerator` leaves behind: the error it
returned (or that it panicked), the state of the generator and the records the
generator was called on, in order. -/
structure GeneratorRun (σ : Type) where
  out : Ret (Option GoError)
  state : σ
  calls : List record

/-- The message of the panic in `WithIDGenerator`. -/
def idGeneratorPanic : String :=
  "an attempt to set ID generator for a child that already have an ID value"

/-- `func WithIDGenerator(c context.Context, g IDGenerator) KeyOption` of
`inserter.go`, applied to `key` with the generator in state `s`:
`if key.ID != nil { panic(...) }; return g(c, &record{key: key})`. -/
def WithIDGenerator {σ : Type} (g : IDGenerator σ) (key : Key) (s : σ) : GeneratorRun σ :=
  if key.ID ≠ IDValue.nil then
    ⟨.panicked idGeneratorPanic, s, []⟩
  else
    let r := g { key := some key, err := none, changed := false, data := Any.nil } s
    ⟨.ret r.1, r.2, [{ key := some key, err := none, changed := false, data := Any.nil }]⟩

/-! ## Transaction contexts (`gaedb/database.go`, `dal/transaction_test.go`) -/

/-- A key under which a value is stored in a `context.Context`. The first two are
the addresses `&isInTransactionFlag` and `&nonTransactionalContextKey` of the
package variables of `gaedb`; the next two are the keys of package `dal`. -/
inductive ContextKey where
  | isInTransactionFlag
  | nonTransactionalContextKey
  | dalTransaction
  | dalNonTransactionalContext
  | other (name : String)
deriving DecidableEq, Repr

/-- A transaction object, given by a name (the `mockTx` of the tests). -/
structure Transaction where
  name : String
deriving DecidableEq, Repr

/-- A Go `context.Context`: a root context, or `context.WithValue(parent, key, val)`
for a value that is a bool, a context, a transaction or something else. -/
inductive Context where
  | background (name : String)
  | withBool (parent : Context) (key : ContextKey) (val : Bool)
  | withContext (parent : Context) (key : ContextKey) (val : Context)
  | withTransaction (parent : Context) (key : ContextKey) (val : Transaction)
  | withOther (parent : Context) (key : ContextKey) (val : Any)
deriving DecidableEq, Repr

/-- A value stored in a context. -/
inductive ContextValue where
  | bool (b : Bool)
  | context (c : Context)
  | transaction (tx : Transaction)
  | other (a : Any)
deriving DecidableEq, Repr

/-- Go `ctx.Value(key)`: the value stored under `key` by the nearest enclosing
`WithValue`, or `none` (nil) when there is none. -/
def Context.Value : Context → ContextKey → Option ContextValue
  | .background _, _ => none
  | .withBool parent k val, key => if k = key then some (.bool val) else parent.Value key
  | .withContext parent k val, key =>
    if k = key then some (.context val) else parent.Value key
  | .withTransaction parent k val, key =>
    if k = key then some (.transaction val) else parent.Value key
  | .withOther parent k val, key => if k = key then some (.other val) else parent.Value key

/-- The context `tc` that `gaeDatabase.RunInTransaction` builds from `c` and runs
the transaction in:
`context.WithValue(context.WithValue(c, &isInTransactionFlag, true), &nonTransactionalContextKey, c)`. -/
def transactionalContext (c : Context) : Context :=
  .withContext (.withBool c .isInTransactionFlag true) .nonTransactionalContextKey c

/-- `func (_ gaeDatabase) IsInTransaction(c context.Context) bool`; the type
assertion `v.(bool)` panics on a value that is not a bool. -/
def IsInTransaction (c : Context) : Ret Bool :=
  match c.Value .isInTransactionFlag with
  | none => .ret false
  | some (.bool b) => .ret b
  | some _ => .panicked "interface conversion"

/-- `func (_ gaeDatabase) NonTransactionalContext(tc context.Context) context.Context`;
the type assertion `c.(context.Context)` panics on a value that is not a
context. -/
def NonTransactionalContext (tc : Context) : Ret Context :=
  match tc.Value .nonTransactionalContextKey with
  | none => .ret tc
  | some (.context c) => .ret c
  | some _ => .panicked "interface conversion"

/-- Modelled from the spec: `NewContextWithTransaction(ctx, tx)` of package `dal`,
of which only the tests are among the sources: the carrier that lets a call
chain discover the "currently active transaction" and "the context before
entering it". It stores the original context and the transaction under two keys
of the package. -/
def NewContextWithTransaction (ctx : Context) (tx : Transaction) : Context :=
  .withTransaction (.withContext ctx .dalNonTransactionalContext ctx) .dalTransaction tx

/-- Modelled from the spec: `GetTransaction(ctx)` of package `dal` ("get current
transaction"), of which only the tests are among the sources; nil when the
context carries no transaction. -/
def GetTransaction (ctx : Context) : Ret (Option Transaction) :=
  match ctx.Value .dalTransaction with
  | none => .ret none
  | some (.transaction tx) => .ret (some tx)
  | some _ => .panicked "interface conversion"

/-- Modelled from the spec: `GetNonTransactionalContext(ctx)` of package `dal`
("get the context as it was before entering the current transaction"), of which
only the tests are among the sources. -/
def GetNonTransactionalContext (ctx : Context) : Ret Context :=
  match ctx.Value .dalNonTransactionalContext with
  | some (.context c) => .ret c
  | _ => .panicked "interface conversion"

/-! ## Entity holder keys (`gaedb/database.go`) -/

/-- What `getEntityHolderKey` and `GetMulti` read of a `db.EntityHolder`: the
results of `Kind()`, `IntID()` and `StrID()`. -/
structure EntityHolder where
  Kind : String
  IntID : Int
  StrID : String
deriving DecidableEq, Repr

/-- A `*datastore.Key` as the package makes it: `NewIncompleteKey(c, kind, nil)`
has no identifier, `NewKey(c, kind, strID, intID, nil)` carries the two it is
given. -/
structure DatastoreKey where
  kind : String
  stringID : String
  intID : Int
deriving DecidableEq, Repr

/-- `NewIncompleteKey(c, kind, nil)`. -/
def NewIncompleteKey (kind : String) : DatastoreKey :=
  { kind := kind, stringID := "", intID := 0 }

/-- `NewKey(c, kind, strID, intID, nil)` of `gaedb`. -/
def NewDatastoreKey (kind strID : String) (intID : Int) : DatastoreKey :=
  { kind := kind, stringID := strID, intID := intID }

/-- `datastore.Key.Incomplete`: the key has neither identifier. -/
def DatastoreKey.Incomplete (k : DatastoreKey) : Bool := k.stringID = "" && k.intID = 0

/-- `var ErrKeyHasBothIds = errors.New("entity has both string and int ids")`. -/
def ErrKeyHasBothIds : GoError := .sentinel "ErrKeyHasBothIds"

/-- `var ErrEmptyKind = errors.New("entity holder returned empty kind")`. -/
def ErrEmptyKind : GoError := .sentinel "ErrEmptyKind"

/-- The results `(key, isIncomplete, err)` of `getEntityHolderKey`. -/
structure HolderKey where
  key : Option DatastoreKey
  isIncomplete : Bool
  err : Option GoError
deriving DecidableEq, Repr

/-- `func getEntityHolderKey(c context.Context, entityHolder db.EntityHolder)
(key *datastore.Key, isIncomplete bool, err error)`. -/
def getEntityHolderKey (entityHolder : EntityHolder) : HolderKey :=
  let kind := entityHolder.Kind
  if kind = "" then
    { key := none, isIncomplete := false, err := some ErrEmptyKind }
  else
    let intID := entityHolder.IntID
    let strID := entityHolder.StrID
    let isIncomplete := decide (intID = 0) && decide (strID = "")
    if isIncomplete then
      { key := some (NewIncompleteKey kind), isIncomplete := isIncomplete, err := none }
    else if intID ≠ 0 ∨ strID ≠ "" then
      { key := some (NewDatastoreKey kind strID intID), isIncomplete := isIncomplete,
        err := none }
    else
      { key := none, isIncomplete := isIncomplete,
        err := some (GoError.wrap
          (kind ++ "(intID=" ++ toString intID ++ ", strID=" ++ strID ++ ")")
          ErrKeyHasBothIds) }

/-- The test that the loop of `gaeDatabase.GetMulti` makes on every entity holder
before it builds the key (lines 166-172): the error it returns, or `none` when
the holder passes. -/
def getMultiCheck (entityHolder : EntityHolder) : Option GoError :=
  let intID := entityHolder.IntID
  let strID := entityHolder.StrID
  if intID ≠ 0 ∧ strID ≠ "" then
    some (.new "intID != 0 && strID is NOT empty string")
  else if intID = 0 ∧ strID = "" then
    some (.new "intID == 0 && strID is empty string")
  else
    none

/-! ## Concrete inputs -/

/-- A key with a valid root parent whose own identifier is a field list holding a
`FieldVal` with an empty name and a nil value:
`Key{parent: &Key{kind: "users", ID: "u1"}, kind: "orders", ID: []FieldVal{{"", nil}}}`. -/
def invalidFieldChild : Key :=
  .child (.root "users" (.str "u1")) "orders" (.fields [⟨"", Any.nil⟩])

/-- The callbacks of `TestInsertWithRandomID`; the state is the pair
`(generatesCount, insertsCount)`. The generator counts its calls, the checker
answers found while `generatesCount < 3` and not found afterwards, and insert
counts its calls. -/
def testCallbacks : Callbacks (Nat × Nat) where
  generateID := fun s => (none, (s.1 + 1, s.2))
  exists_ := fun s => (if s.1 < 3 then none else some ErrRecordNotFound, s)
  insert := fun _ s => (none, (s.1, s.2 + 1))

/-- The record `record{data: data}` that the test inserts. -/
def testRecord : record := { key := none, err := none, changed := false, data := Any.str "o" }

/-- Callbacks whose existence check answers found on its first call and fails
with a connection error on its second; the state counts the generator calls. -/
def brokenCheckCallbacks : Callbacks Nat where
  generateID := fun s => (none, s + 1)
  exists_ := fun s => (if s < 2 then none else some (GoError.new "connection lost"), s)
  insert := fun _ s => (none, s)

/-- Three records with string identifiers. -/
def threeRecords : List Record :=
  [some ⟨some (.root "users" (.str "a")), none, false, Any.nil⟩,
   some ⟨some (.root "users" (.str "b")), none, false, Any.nil⟩,
   some ⟨some (.root "users" (.str "c")), none, false, Any.nil⟩]

/-- A reader that yields `threeRecords` and then `ErrNoMoreRecords`. -/
def threeRecordReader : Reader Nat := scriptReader threeRecords ErrNoMoreRecords none

/-- A reader that yields two of the three records and then a connection error. -/
def brokenReader : Reader Nat :=
  scriptReader (threeRecords.take 2) (GoError.new "connection lost") none

/-- The key `users/u1/orders/7`: an order with an int identifier under a user. -/
def orderKey : Key := .child (.root "users" (.str "u1")) "orders" (.int 7)

/-- `fmt.Sprintf("%v", ·)` on identifiers; a value of another type prints as `?`. -/
def sprintPlain : IDValue → String := SprintID "?"

/-- The collection `users` at the root. -/
def usersRef : CollectionRef := { Name := "users", Parent := none }

/-- The filter `age > 18`. -/
def adultFilter : Condition := .Comparison "age" ">" "18"

/-- The filter `(age > 18ANDcity == Oslo)`. -/
def adultInOslo : Condition :=
  .GroupCondition Operator.And [adultFilter, .Comparison "city" "==" "Oslo"]

/-- A `theQuery` with one column and a `Comparison` filter. -/
def oneLineQuery : theQuery :=
  { from_ := some usersRef, where_ := adultFilter, groupBy := [], orderBy := [],
    columns := [⟨"name"⟩], into := none, offset := 0, limit := 0, idKind := 0,
    startCursor := none }

/-- A `theQuery` with two columns, a group filter, a limit, an ordering and a
grouping. -/
def manyLineQuery : theQuery :=
  { from_ := some usersRef, where_ := adultInOslo, groupBy := [⟨"city"⟩],
    orderBy := [⟨"name"⟩, ⟨"city"⟩], columns := [⟨"name"⟩, ⟨"city"⟩], into := none,
    offset := 0, limit := 5, idKind := 0, startCursor := none }

/-- A `Select` with one column and a `Comparison` filter. -/
def oneLineSelect : Select :=
  { From := some usersRef, Where := adultFilter, GroupBy := [], OrderBy := [],
    Columns := [⟨"name"⟩], Into := none, Limit := 0 }

/-- A `Select` with two columns, a group filter, a limit and a grouping. -/
def manyLineSelect : Select :=
  { From := some usersRef, Where := adultInOslo, GroupBy := [⟨"city"⟩], OrderBy := [],
    Columns := [⟨"name"⟩, ⟨"city"⟩], Into := none, Limit := 5 }

/-- The collection `orders` under the key `users/u1`. -/
def ordersRef : CollectionRef :=
  { Name := "orders", Parent := some (Key.root "users" (IDValue.str "u1")) }

/-- An ID generator that counts its calls in its state and fails. -/
def countingGenerator : IDGenerator Nat :=
  fun _ s => (some (GoError.new "no entropy"), s + 1)

/-- A `theQuery` on `users` without filter. -/
def unfilteredQuery : theQuery :=
  { from_ := some usersRef, where_ := Condition.nil, groupBy := [], orderBy := [],
    columns := [], into := none, offset := 0, limit := 0, idKind := 0, startCursor := none }

/-- A `Select` on `users` without filter: `Select{From: users}`. -/
def unfilteredSelect : Select :=
  { From := some usersRef, Where := Condition.nil, GroupBy := [], OrderBy := [],
    Columns := [], Into := none, Limit := 0 }

/-! ## Lemmas on errors -/

theorem errorsIs_self (e : GoError) : errorsIs e e = true := by
  cases e <;> simp [errorsIs]

theorem errorsIs_wrap_cause (msg : String) (e : GoError) :
    errorsIs (GoError.wrap msg e) e = true := by
  simp [errorsIs, errorsIs_self]

/-! ## Keys -/

theorem fieldVal_Validate_error_iff (v : FieldVal) :
    v.Validate ≠ none ↔ v.bad = true := by
  unfold FieldVal.Validate FieldVal.bad blank
  by_cases h1 : TrimSpace v.Name = "" <;> by_cases h2 : v.Value = Any.nil <;> simp [h1, h2]

theorem validateFields_error_iff (fs : List FieldVal) :
    ∀ i, validateFields i fs ≠ none ↔ fs.any FieldVal.bad = true := by
  induction fs with
  | nil => intro i; simp [validateFields]
  | cons f rest ih =>
    intro i
    have hf := fieldVal_Validate_error_iff f
    cases hv : f.Validate with
    | some err =>
      have hb : f.bad = true := hf.mp (by rw [hv]; simp)
      simp [validateFields, hv, hb]
    | none =>
      have hb : f.bad = false := by
        cases hbad : f.bad with
        | false => rfl
        | true => exact absurd hv (hf.mpr hbad)
      simp [validateFields, hv, hb, ih (i + 1)]

/-- What `Key.Validate` checks: it returns an error exactly when some kind in the
chain is blank or the field list of the root key holds a bad `FieldVal`
(identifiers without a `Validate` method of their own). -/
theorem key_Validate_error_iff (k : Key) (hplain : k.plainIDs = true) :
    k.Validate ≠ none ↔
      (k.chain.any (fun a => blank a.kind) = true ∨
        k.rootOf.ID.fieldVals.any FieldVal.bad = true) := by
  induction k with
  | root kind id =>
    by_cases hk : TrimSpace kind = ""
    · simp [Key.Validate, Key.chain, Key.kind, blank, hk]
    · cases id with
      | fields fs =>
        have := validateFields_error_iff fs 0
        cases hv : validateFields 0 fs with
        | none =>
          rw [hv] at this
          simp [Key.Validate, Key.chain, Key.kind, blank, hk, validateID, hv, Key.rootOf,
            Key.ID, IDValue.fieldVals]
          simpa using this
        | some err =>
          rw [hv] at this
          simp [Key.Validate, Key.chain, Key.kind, blank, hk, validateID, hv, Key.rootOf,
            Key.ID, IDValue.fieldVals]
          simpa using this
      | validatable r => simp [Key.plainIDs, Key.chain, Key.ID] at hplain
      | nil => simp [Key.Validate, Key.chain, Key.kind, blank, hk, validateID, Key.rootOf,
            Key.ID, IDValue.fieldVals]
      | str s => simp [Key.Validate, Key.chain, Key.kind, blank, hk, validateID, Key.rootOf,
            Key.ID, IDValue.fieldVals]
      | int n => simp [Key.Validate, Key.chain, Key.kind, blank, hk, validateID, Key.rootOf,
            Key.ID, IDValue.fieldVals]
  | child parent kind id ih =>
    have hp : parent.plainIDs = true := by
      simp [Key.plainIDs, Key.chain] at hplain ⊢
      exact hplain.2
    by_cases hk : TrimSpace kind = ""
    · simp [Key.Validate, Key.chain, Key.kind, blank, hk]
    · have hb : blank (Key.child parent kind id).kind = false := by
        simp [Key.kind, blank, hk]
      simp only [Key.Validate, hk, if_false, Key.chain, List.any_cons, hb, Bool.false_or,
        Key.rootOf]
      exact ih hp

/-- C1 (code defect): `Key.Validate` returns the parent's verdict as soon as a
parent is present, so the identifier of a key that has a parent is never looked
at. The key `invalidFieldChild` has no identifier with a `Validate` method of
its own and holds a `FieldVal` with a blank name and a nil value, so the claim
asks for an error, yet `Validate` returns nil. -/
theorem C1_child_field_list_not_validated :
    invalidFieldChild.plainIDs = true ∧ invalidFieldChild.specInvalid = true ∧
      invalidFieldChild.Validate = none := by
  decide

/-! ## Records -/

/-- C2 (as stated, refuted): a record made by `NewRecordWithoutKey` is Unpopulated,
and `Data()` on it returns the payload instead of panicking. -/
theorem C2_data_on_unpopulated_returns :
    (NewRecordWithoutKey (Any.str "payload")).Unpopulated ∧
      (NewRecordWithoutKey (Any.str "payload")).Data = Ret.ret (Any.str "payload") :=
  ⟨rfl, rfl⟩

/-- C2 (amended): for a valid key, the records made by `NewRecord`,
`NewRecordWithData` and `NewRecordWithoutKey` are Unpopulated and `Exists()`
panics on each of them, while `Data()` on the records made by
`NewRecordWithData` and `NewRecordWithoutKey` returns the data they were made
with. -/
theorem C2_unpopulated_exists_panics_data_returns (key : Key) (data : Any)
    (hvalid : key.Validate = none) :
    ∃ a b : record,
      NewRecord (some key) = Ret.ret a ∧ NewRecordWithData (some key) data = Ret.ret b ∧
      a.Unpopulated ∧ b.Unpopulated ∧ (NewRecordWithoutKey data).Unpopulated ∧
      a.Exists = Ret.panicked existsPanic ∧ b.Exists = Ret.panicked existsPanic ∧
      (NewRecordWithoutKey data).Exists = Ret.panicked existsPanic ∧
      b.Data = Ret.ret data ∧ (NewRecordWithoutKey data).Data = Ret.ret data := by
  refine ⟨⟨some key, none, false, Any.nil⟩, ⟨some key, none, false, data⟩, ?_, ?_,
    rfl, rfl, rfl, rfl, rfl, rfl, rfl, rfl⟩
  · simp [NewRecord, newRecord, hvalid]
  · simp [NewRecordWithData, newRecord, hvalid]

/-- Witness of C2 (amended) at the key `users/a` and the payload `"x"`. -/
theorem C2_unpopulated_witness :
    ∃ a b : record,
      NewRecord (some (Key.root "users" (IDValue.str "a"))) = Ret.ret a ∧
      NewRecordWithData (some (Key.root "users" (IDValue.str "a"))) (Any.str "x")
        = Ret.ret b ∧
      a.Unpopulated ∧ b.Unpopulated ∧ (NewRecordWithoutKey (Any.str "x")).Unpopulated ∧
      a.Exists = Ret.panicked existsPanic ∧ b.Exists = Ret.panicked existsPanic ∧
      (NewRecordWithoutKey (Any.str "x")).Exists = Ret.panicked existsPanic ∧
      b.Data = Ret.ret (Any.str "x") ∧
      (NewRecordWithoutKey (Any.str "x")).Data = Ret.ret (Any.str "x") :=
  C2_unpopulated_exists_panics_data_returns (Key.root "users" (IDValue.str "a"))
    (Any.str "x") (by decide)

/-- C3: for every record, after `SetError(nil)` `Exists()` returns true and
`Error()` returns nil, and after `SetError(ErrRecordNotFound)` `Exists()`
returns false and `Error()` returns nil. -/
theorem C3_setError_found_and_notFound (v : record) :
    (v.SetError none).Exists = Ret.ret true ∧ (v.SetError none).Error = none ∧
      (v.SetError (some ErrRecordNotFound)).Exists = Ret.ret false ∧
      (v.SetError (some ErrRecordNotFound)).Error = none := by
  refine ⟨?_, ?_, ?_, ?_⟩ <;>
    simp [record.SetError, record.Exists, record.Error, IsNotFound, errorsIs, NoError,
      ErrRecordNotFound]

/-! ## Insert with retry -/

theorem insertAttempts_found {σ : Type} (cb : Callbacks σ) (r : record) (a : Int) :
    ∀ (k m : Nat) (s : σ) (calls : List Call),
      (∀ j, j < k → genResult cb s j = none ∧ existsResult cb s j = none) →
      insertAttempts cb r a (k + m) s calls =
        insertAttempts cb r a m (afterAttempts cb k s) (calls ++ attemptCalls k) := by
  intro k
  induction k with
  | zero => intro m s calls _; simp [afterAttempts, attemptCalls]
  | succ k ih =>
    intro m s calls h
    have h0 := h 0 (Nat.succ_pos k)
    have hg : (cb.generateID s).1 = none := h0.1
    have hx : (cb.exists_ (cb.generateID s).2).1 = none := h0.2
    have hrest : ∀ j, j < k →
        genResult cb (cb.exists_ (cb.generateID s).2).2 j = none ∧
          existsResult cb (cb.exists_ (cb.generateID s).2).2 j = none := by
      intro j hj
      exact h (j + 1) (Nat.succ_lt_succ hj)
    have hk : k + 1 + m = (k + m) + 1 := by omega
    rw [hk]
    simp only [insertAttempts, hg, hx]
    rw [ih m _ _ hrest]
    simp [afterAttempts, attemptCalls]

theorem attemptCalls_succ (k : Nat) :
    attemptCalls (k + 1) = attemptCalls k ++ [Call.generateID, Call.exists_] := by
  induction k with
  | zero => rfl
  | succ k ih =>
    calc attemptCalls (k + 1 + 1)
        = [Call.generateID, Call.exists_] ++ attemptCalls (k + 1) := rfl
      _ = [Call.generateID, Call.exists_] ++
            (attemptCalls k ++ [Call.generateID, Call.exists_]) := by rw [ih]
      _ = attemptCalls (k + 1) ++ [Call.generateID, Call.exists_] := by
            simp [attemptCalls]

theorem count_generateID_attemptCalls (k : Nat) :
    (attemptCalls k).count Call.generateID = k := by
  induction k with
  | zero => rfl
  | succ k ih => simp [attemptCalls, ih]

theorem count_exists_attemptCalls (k : Nat) :
    (attemptCalls k).count Call.exists_ = k := by
  induction k with
  | zero => rfl
  | succ k ih => simp [attemptCalls, ih]

theorem filter_isInsert_attemptCalls (k : Nat) :
    (attemptCalls k).filter Call.isInsert = [] := by
  induction k with
  | zero => rfl
  | succ k ih => simp [attemptCalls, ih, Call.isInsert]

/-- C4: let the generator always succeed and the existence check answer found on
its first `k` calls and not found on call `k + 1`. With an attempt bound
`n ≥ k + 1`, `InsertWithRandomID` makes `k + 1` rounds of generator and check
followed by one call `insert(r)` and nothing else, so the generator is called
exactly `k + 1` times and insert exactly once, with the original record; the
error returned is the one insert returned, and the callbacks are left in the
state insert left them in. -/
theorem C4_insert_after_k_collisions {σ : Type} (cb : Callbacks σ) (r : record) (s : σ)
    (k : Nat) (n : Int) (hn : (k : Int) + 1 ≤ n)
    (hgen : ∀ j, genResult cb s j = none)
    (hfound : ∀ j, j < k → existsResult cb s j = none)
    (hnot : IsNotFound (existsResult cb s k) = true) :
    (InsertWithRandomID cb r n s).err =
        (cb.insert r (cb.exists_ (cb.generateID (afterAttempts cb k s)).2).2).1 ∧
      (InsertWithRandomID cb r n s).state =
        (cb.insert r (cb.exists_ (cb.generateID (afterAttempts cb k s)).2).2).2 ∧
      (InsertWithRandomID cb r n s).calls = attemptCalls (k + 1) ++ [Call.insert r] ∧
      (InsertWithRandomID cb r n s).calls.count Call.generateID = k + 1 ∧
      (InsertWithRandomID cb r n s).calls.filter Call.isInsert = [Call.insert r] := by
  obtain ⟨m, hm⟩ : ∃ m, n.toNat = k + (m + 1) := ⟨n.toNat - k - 1, by omega⟩
  have hsteps := insertAttempts_found cb r n k (m + 1) s []
    (fun j hj => ⟨hgen j, hfound j hj⟩)
  have hg : (cb.generateID (afterAttempts cb k s)).1 = none := hgen k
  have hrun : InsertWithRandomID cb r n s =
      ⟨(cb.insert r (cb.exists_ (cb.generateID (afterAttempts cb k s)).2).2).1,
        (cb.insert r (cb.exists_ (cb.generateID (afterAttempts cb k s)).2).2).2,
        attemptCalls (k + 1) ++ [Call.insert r]⟩ := by
    unfold InsertWithRandomID
    rw [hm, hsteps]
    unfold existsResult at hnot
    cases hx : (cb.exists_ (cb.generateID (afterAttempts cb k s)).2).1 with
    | none => rw [hx] at hnot; simp [IsNotFound] at hnot
    | some e =>
      rw [hx] at hnot
      simp only [insertAttempts, hg, hx, hnot]
      simp [attemptCalls_succ]
  rw [hrun]
  refine ⟨rfl, rfl, rfl, ?_, ?_⟩
  · simp [count_generateID_attemptCalls]
  · simp [filter_isInsert_attemptCalls, Call.isInsert]

/-- Witness of C4: the callbacks of `TestInsertWithRandomID` (found on the first
two calls, not found on the third) with the attempt bound 5. -/
theorem C4_witness_test_scenario :
    (InsertWithRandomID testCallbacks testRecord 5 (0, 0)).err = none ∧
      (InsertWithRandomID testCallbacks testRecord 5 (0, 0)).state = (3, 1) ∧
      (InsertWithRandomID testCallbacks testRecord 5 (0, 0)).calls =
        attemptCalls 3 ++ [Call.insert testRecord] ∧
      (InsertWithRandomID testCallbacks testRecord 5 (0, 0)).calls.count Call.generateID
        = 3 ∧
      (InsertWithRandomID testCallbacks testRecord 5 (0, 0)).calls.filter Call.isInsert
        = [Call.insert testRecord] :=
  C4_insert_after_k_collisions testCallbacks testRecord (0, 0) 2 5 (by decide)
    (fun _ => rfl) (by decide) (by decide)

/-- C5: let the generator always succeed and the existence check answer found on
each of its first `n` calls. For every attempt bound `n`, negative and zero
included, `InsertWithRandomID` returns the error
"not able to generate unique Value in n attempts", after `max(n, 0)` rounds
of generator and check and nothing else: the generator has been called exactly
`max(n, 0)` times and insert never. -/
theorem C5_exhausted_after_n_collisions {σ : Type} (cb : Callbacks σ) (r : record)
    (s : σ) (n : Int)
    (hgen : ∀ j, genResult cb s j = none)
    (hfound : ∀ j : Nat, (j : Int) < n → existsResult cb s j = none) :
    (InsertWithRandomID cb r n s).err =
        some (GoError.new
          ("not able to generate unique Value in " ++ toString n ++ " attempts")) ∧
      (InsertWithRandomID cb r n s).calls = attemptCalls n.toNat ∧
      (((InsertWithRandomID cb r n s).calls.count Call.generateID : Nat) : Int)
        = max n 0 ∧
      (InsertWithRandomID cb r n s).calls.filter Call.isInsert = [] := by
  have hsteps := insertAttempts_found cb r n n.toNat 0 s []
    (fun j hj => ⟨hgen j, hfound j (by omega)⟩)
  have hrun : InsertWithRandomID cb r n s =
      ⟨some (errExhausted n), afterAttempts cb n.toNat s, attemptCalls n.toNat⟩ := by
    unfold InsertWithRandomID
    rw [show n.toNat = n.toNat + 0 from rfl, hsteps]
    simp [insertAttempts]
  rw [hrun]
  refine ⟨rfl, rfl, ?_, ?_⟩
  · simp only [count_generateID_attemptCalls]
    omega
  · exact filter_isInsert_attemptCalls _

/-- Witness of C5: the callbacks of `TestInsertWithRandomID` (found on the first
two calls) with the attempt bound 2. -/
theorem C5_witness_bound_two :
    (InsertWithRandomID testCallbacks testRecord 2 (0, 0)).err =
        some (GoError.new
          ("not able to generate unique Value in " ++ toString (2 : Int) ++ " attempts")) ∧
      (InsertWithRandomID testCallbacks testRecord 2 (0, 0)).calls =
        attemptCalls (2 : Int).toNat ∧
      (((InsertWithRandomID testCallbacks testRecord 2 (0, 0)).calls.count
        Call.generateID : Nat) : Int) = max 2 0 ∧
      (InsertWithRandomID testCallbacks testRecord 2 (0, 0)).calls.filter Call.isInsert
        = [] :=
  C5_exhausted_after_n_collisions testCallbacks testRecord (0, 0) 2 (fun _ => rfl)
    (fun j hj => by
      have hj2 : j < 2 := by omega
      interval_cases j <;> rfl)

/-- C6: if the generator succeeds on the first `j + 1` attempts, the existence
check answers found on the first `j` and on attempt `j + 1 ≤ n` returns an
error `e` that is not a not-found error, then `InsertWithRandomID` returns
`fmt.Errorf("failed to check if record exists: %w", e)`, whose cause chain
leads to `e`; the calls made are the `j + 1` rounds of generator and check and
nothing after them (no further generator or check call, no insert), and the
callbacks are left in the state of that last check. -/
theorem C6_check_failure_aborts {σ : Type} (cb : Callbacks σ) (r : record) (s : σ)
    (j : Nat) (n : Int) (e : GoError) (hn : (j : Int) + 1 ≤ n)
    (hgen : ∀ i, i ≤ j → genResult cb s i = none)
    (hfound : ∀ i, i < j → existsResult cb s i = none)
    (hfail : existsResult cb s j = some e)
    (hother : IsNotFound (some e) = false) :
    (InsertWithRandomID cb r n s).err =
        some (GoError.wrap "failed to check if record exists" e) ∧
      (GoError.wrap "failed to check if record exists" e).Unwrap = some e ∧
      errorsIs (GoError.wrap "failed to check if record exists" e) e = true ∧
      (InsertWithRandomID cb r n s).calls = attemptCalls (j + 1) ∧
      (InsertWithRandomID cb r n s).state =
        (cb.exists_ (cb.generateID (afterAttempts cb j s)).2).2 ∧
      (InsertWithRandomID cb r n s).calls.filter Call.isInsert = [] := by
  obtain ⟨m, hm⟩ : ∃ m, n.toNat = j + (m + 1) := ⟨n.toNat - j - 1, by omega⟩
  have hsteps := insertAttempts_found cb r n j (m + 1) s []
    (fun i hi => ⟨hgen i (Nat.le_of_lt hi), hfound i hi⟩)
  have hg : (cb.generateID (afterAttempts cb j s)).1 = none := hgen j (Nat.le_refl j)
  have hx : (cb.exists_ (cb.generateID (afterAttempts cb j s)).2).1 = some e := hfail
  have hrun : InsertWithRandomID cb r n s =
      ⟨some (GoError.wrap "failed to check if record exists" e),
        (cb.exists_ (cb.generateID (afterAttempts cb j s)).2).2,
        attemptCalls (j + 1)⟩ := by
    unfold InsertWithRandomID
    rw [hm, hsteps]
    simp only [insertAttempts, hg, hx, hother]
    simp [attemptCalls_succ]
  rw [hrun]
  exact ⟨rfl, rfl, errorsIs_wrap_cause _ e, rfl, rfl, filter_isInsert_attemptCalls _⟩

/-- Witness of C6: the check answers found once and then fails with a connection
error, under the attempt bound 5. -/
theorem C6_witness_connection_lost :
    (InsertWithRandomID brokenCheckCallbacks testRecord 5 0).err =
        some (GoError.wrap "failed to check if record exists"
          (GoError.new "connection lost")) ∧
      (GoError.wrap "failed to check if record exists"
        (GoError.new "connection lost")).Unwrap = some (GoError.new "connection lost") ∧
      errorsIs (GoError.wrap "failed to check if record exists"
        (GoError.new "connection lost")) (GoError.new "connection lost") = true ∧
      (InsertWithRandomID brokenCheckCallbacks testRecord 5 0).calls = attemptCalls 2 ∧
      (InsertWithRandomID brokenCheckCallbacks testRecord 5 0).state = 2 ∧
      (InsertWithRandomID brokenCheckCallbacks testRecord 5 0).calls.filter Call.isInsert
        = [] :=
  C6_check_failure_aborts brokenCheckCallbacks testRecord 0 1 5
    (GoError.new "connection lost") (by decide) (fun _ _ => rfl) (by decide) (by decide)
    (by decide)

/-! ## Bulk readers -/

theorem adjustLimit_of_neg (limit : Int) (h : limit < 0) : adjustLimit limit = MaxInt := by
  unfold adjustLimit
  rw [if_neg (by omega)]

theorem adjustLimit_of_nonneg (limit : Int) (h : 0 ≤ limit) : adjustLimit limit = limit := by
  unfold adjustLimit
  rw [if_pos (by omega)]

theorem selectAllIDsLoop_drain {ρ τ : Type} (reader : Reader ρ) (asT : IDValue → Option τ)
    (e : GoError) :
    ∀ (rs : List Record) (got : List τ) (limit : Nat) (s : ρ) (ids : List τ)
      (calls : List ReaderCall),
      Yields reader s rs e → rs.map (recordID asT) = got.map Ret.ret → rs.length < limit →
      selectAllIDsLoop reader asT limit s ids calls =
        ⟨Ret.ret (ids ++ got, nextError e), afterNexts reader (rs.length + 1) s,
          calls ++ List.replicate (rs.length + 1) ReaderCall.Next⟩ := by
  intro rs
  induction rs with
  | nil =>
    intro got limit s ids calls hy hids hlt
    cases got with
    | cons g gs => simp at hids
    | nil =>
      obtain ⟨l, rfl⟩ : ∃ l, limit = l + 1 := ⟨limit - 1, by simp at hlt; omega⟩
      have hn : (reader.Next s).1.2 = some e := hy
      simp [selectAllIDsLoop, hn, afterNexts]
  | cons r rs ih =>
    intro got limit s ids calls hy hids hlt
    cases got with
    | nil => simp at hids
    | cons g gs =>
      obtain ⟨l, rfl⟩ : ∃ l, limit = l + 1 := ⟨limit - 1, by simp at hlt; omega⟩
      obtain ⟨hn, hrest⟩ := hy
      simp only [List.map_cons, List.cons.injEq] at hids
      have h2 : (reader.Next s).1.2 = none := by rw [hn]
      have h1 : (reader.Next s).1.1 = r := by rw [hn]
      have hl : rs.length < l := by simp at hlt; omega
      simp only [selectAllIDsLoop, h2, h1, hids.1]
      rw [ih gs l _ _ _ hrest hids.2 hl]
      simp [afterNexts, List.replicate_succ]

theorem selectAllRecordsLoop_drain {ρ : Type} (reader : Reader ρ) (limit : Int)
    (e : GoError) :
    ∀ (rs : List Record) (fuel : Nat) (i : Int) (s : ρ) (records : List Record)
      (calls : List ReaderCall),
      Yields reader s rs e → (limit ≤ 0 ∨ i + rs.length < limit) → rs.length < fuel →
      selectAllRecordsLoop reader limit fuel i s records calls =
        some ⟨Ret.ret (records ++ rs, nextError e), afterNexts reader (rs.length + 1) s,
          calls ++ List.replicate (rs.length + 1) ReaderCall.Next⟩ := by
  intro rs
  induction rs with
  | nil =>
    intro fuel i s records calls hy hlim hlt
    obtain ⟨f, rfl⟩ : ∃ f, fuel = f + 1 := ⟨fuel - 1, by simp at hlt; omega⟩
    have hn : (reader.Next s).1.2 = some e := hy
    have hc : limit ≤ 0 ∨ i < limit := by simpa using hlim
    simp [selectAllRecordsLoop, hn, hc, afterNexts]
  | cons r rs ih =>
    intro fuel i s records calls hy hlim hlt
    obtain ⟨f, rfl⟩ : ∃ f, fuel = f + 1 := ⟨fuel - 1, by simp at hlt; omega⟩
    obtain ⟨hn, hrest⟩ := hy
    have h2 : (reader.Next s).1.2 = none := by rw [hn]
    have h1 : (reader.Next s).1.1 = r := by rw [hn]
    have hc : limit ≤ 0 ∨ i < limit := by
      rcases hlim with h | h
      · exact Or.inl h
      · right; simp at h; omega
    have hlim2 : limit ≤ 0 ∨ (i + 1) + rs.length < limit := by
      rcases hlim with h | h
      · exact Or.inl h
      · right; simp at h; omega
    have hl : rs.length < f := by simp at hlt; omega
    simp only [selectAllRecordsLoop, hc, if_true, h2, h1]
    rw [ih f _ _ _ _ hrest hlim2 hl]
    simp [afterNexts, List.replicate_succ]

/-- The run of `SelectAllRecords` on a reader that yields `rs` and then fails with
`e`, when the limit lets the loop reach the failing call. -/
theorem SelectAllRecords_drain {ρ : Type} (reader : Reader ρ) (s : ρ) (rs : List Record)
    (e : GoError) (limit : Int) (fuel : Nat) (hy : Yields reader s rs e)
    (hlen : (rs.length : Int) < MaxInt) (hlim : limit ≤ 0 ∨ (rs.length : Int) < limit)
    (hfuel : rs.length < fuel) :
    SelectAllRecords fuel (some reader) limit s =
      some ⟨Ret.ret (rs, nextError e), afterNexts reader (rs.length + 1) s,
        List.replicate (rs.length + 1) ReaderCall.Next⟩ := by
  have hadj : adjustLimit limit ≤ 0 ∨ (0 : Int) + rs.length < adjustLimit limit := by
    rcases Int.lt_or_le limit 0 with h | h
    · right; rw [adjustLimit_of_neg limit h]; omega
    · rw [adjustLimit_of_nonneg limit h]
      rcases hlim with h1 | h1
      · exact Or.inl h1
      · right; omega
  have h := selectAllRecordsLoop_drain reader (adjustLimit limit) e rs fuel 0 s [] []
    hy hadj hfuel
  simpa [SelectAllRecords] using h

/-- The run of `SelectAllIDs` on a reader that yields `rs`, whose identifiers are
`ids`, and then fails with `e`, when the limit lets the loop reach the failing
call. -/
theorem SelectAllIDs_drain {ρ τ : Type} (asT : IDValue → Option τ) (reader : Reader ρ)
    (s : ρ) (rs : List Record) (ids : List τ) (e : GoError) (limit : Int)
    (hy : Yields reader s rs e) (hlen : (rs.length : Int) < MaxInt)
    (hlim : limit < 0 ∨ (rs.length : Int) < limit)
    (hids : rs.map (recordID asT) = ids.map Ret.ret) :
    SelectAllIDs asT (some reader) limit s =
      ⟨Ret.ret (ids, nextError e), afterNexts reader (rs.length + 1) s,
        List.replicate (rs.length + 1) ReaderCall.Next⟩ := by
  have hadj : rs.length < (adjustLimit limit).toNat := by
    rcases Int.lt_or_le limit 0 with h | h
    · rw [adjustLimit_of_neg limit h]; omega
    · rw [adjustLimit_of_nonneg limit h]
      rcases hlim with h1 | h1
      · omega
      · omega
  have h := selectAllIDsLoop_drain reader asT e rs ids (adjustLimit limit).toNat s [] []
    hy hids hadj
  simpa [SelectAllIDs] using h

theorem selectAllIDsLoop_bound {ρ τ : Type} (reader : Reader ρ) (asT : IDValue → Option τ) :
    ∀ (limit : Nat) (s : ρ) (ids : List τ) (calls : List ReaderCall),
      (selectAllIDsLoop reader asT limit s ids calls).calls.count ReaderCall.Next
          ≤ calls.count ReaderCall.Next + limit ∧
        ∀ out err, (selectAllIDsLoop reader asT limit s ids calls).out = Ret.ret (out, err) →
          out.length ≤ ids.length + limit := by
  intro limit
  induction limit with
  | zero =>
    intro s ids calls
    simp [selectAllIDsLoop]
  | succ l ih =>
    intro s ids calls
    cases h2 : (reader.Next s).1.2 with
    | some err =>
      simp only [selectAllIDsLoop, h2]
      constructor
      · simp
      · intro out err' h
        simp at h
        rw [← h.1]; omega
    | none =>
      cases h1 : recordID asT (reader.Next s).1.1 with
      | panicked msg =>
        simp only [selectAllIDsLoop, h2, h1]
        constructor
        · simp
        · intro out err' h
          simp at h
      | ret id =>
        simp only [selectAllIDsLoop, h2, h1]
        have := ih (reader.Next s).2 (ids ++ [id]) (calls ++ [ReaderCall.Next])
        constructor
        · have h := this.1
          simp at h ⊢
          omega
        · intro out err' h
          have h' := this.2 out err' h
          simp at h'
          omega

theorem selectAllRecordsLoop_bound {ρ : Type} (reader : Reader ρ) (limit : Int)
    (hpos : 0 < limit) :
    ∀ (fuel : Nat) (i : Int) (s : ρ) (records : List Record) (calls : List ReaderCall)
      (run : Run ρ (List Record × Option GoError)),
      selectAllRecordsLoop reader limit fuel i s records calls = some run →
      run.calls.count ReaderCall.Next ≤ calls.count ReaderCall.Next + (limit - i).toNat ∧
        ∀ out err, run.out = Ret.ret (out, err) →
          out.length ≤ records.length + (limit - i).toNat := by
  intro fuel
  induction fuel with
  | zero => intro i s records calls run h; simp [selectAllRecordsLoop] at h
  | succ f ih =>
    intro i s records calls run h
    by_cases hc : i < limit
    · have hc' : limit ≤ 0 ∨ i < limit := Or.inr hc
      cases h2 : (reader.Next s).1.2 with
      | some err =>
        simp only [selectAllRecordsLoop, hc', if_true, h2, Option.some.injEq] at h
        subst h
        constructor
        · simp; omega
        · intro out err' h
          simp at h
          rw [← h.1]; omega
      | none =>
        simp only [selectAllRecordsLoop, hc', if_true, h2] at h
        have := ih (i + 1) _ _ _ run h
        constructor
        · have h' := this.1
          simp at h'
          omega
        · intro out err' ho
          have h' := this.2 out err' ho
          simp at h'
          omega
    · have hc' : ¬ (limit ≤ 0 ∨ i < limit) := by omega
      simp only [selectAllRecordsLoop, hc', if_false, Option.some.injEq] at h
      subst h
      constructor
      · simp
      · intro out err' h
        simp at h
        rw [← h.1]; omega

theorem selectAllRecordsLoop_terminates {ρ : Type} (reader : Reader ρ) (limit : Int) :
    ∀ (fuel : Nat) (i : Int) (s : ρ) (records : List Record) (calls : List ReaderCall),
      0 < limit → (limit - i).toNat < fuel →
      ∃ run, selectAllRecordsLoop reader limit fuel i s records calls = some run := by
  intro fuel
  induction fuel with
  | zero => intro i s records calls _ h; omega
  | succ f ih =>
    intro i s records calls hpos hf
    by_cases hc : i < limit
    · have hc' : limit ≤ 0 ∨ i < limit := Or.inr hc
      cases h2 : (reader.Next s).1.2 with
      | some err => simp [selectAllRecordsLoop, hc', h2]
      | none =>
        simp only [selectAllRecordsLoop, hc', if_true, h2]
        exact ih (i + 1) _ _ _ hpos (by omega)
    · have hc' : ¬ (limit ≤ 0 ∨ i < limit) := by omega
      simp [selectAllRecordsLoop, hc']

/-- For a positive limit `n` and any reader, `SelectAllIDs` calls `Next` at most
`n` times and returns at most `n` identifiers. -/
theorem SelectAllIDs_positive_limit {ρ τ : Type} (asT : IDValue → Option τ)
    (reader : Reader ρ) (n : Int) (s : ρ) (hn : 0 < n) :
    (((SelectAllIDs asT (some reader) n s).calls.count ReaderCall.Next : Nat) : Int) ≤ n ∧
      ∀ out err, (SelectAllIDs asT (some reader) n s).out = Ret.ret (out, err) →
        ((out.length : Nat) : Int) ≤ n := by
  have h := selectAllIDsLoop_bound reader asT (adjustLimit n).toNat s [] []
  rw [adjustLimit_of_nonneg n (by omega)] at h
  constructor
  · have h1 := h.1
    simp [SelectAllIDs, adjustLimit_of_nonneg n (Int.le_of_lt hn)] at h1 ⊢
    omega
  · intro out err ho
    have h2 := h.2 out err (by simpa [SelectAllIDs, adjustLimit_of_nonneg n (Int.le_of_lt hn)] using ho)
    simp at h2
    omega

/-- For a positive limit `n` and any reader, `SelectAllRecords` returns once it has
fuel for `n + 1` loop steps, having called `Next` at most `n` times, and it
returns at most `n` records. -/
theorem SelectAllRecords_positive_limit {ρ : Type} (reader : Reader ρ) (n : Int) (s : ρ)
    (fuel : Nat) (hn : 0 < n) (hfuel : n.toNat < fuel) :
    ∃ run, SelectAllRecords fuel (some reader) n s = some run ∧
      ((run.calls.count ReaderCall.Next : Nat) : Int) ≤ n ∧
      ∀ out err, run.out = Ret.ret (out, err) → ((out.length : Nat) : Int) ≤ n := by
  obtain ⟨run, hrun⟩ := selectAllRecordsLoop_terminates reader n fuel 0 s [] [] hn
    (by simpa using hfuel)
  have h := selectAllRecordsLoop_bound reader n hn fuel 0 s [] [] run hrun
  refine ⟨run, ?_, ?_, ?_⟩
  · simpa [SelectAllRecords, adjustLimit_of_nonneg n (Int.le_of_lt hn)] using hrun
  · have h1 := h.1
    simp at h1
    omega
  · intro out err ho
    have h2 := h.2 out err ho
    simp at h2
    omega

/-- C7: let a reader yield the records `rs` (fewer than `math.MaxInt` of them) and
then the no-more-records signal. With limit `-1`, `SelectAllRecords` returns
exactly `rs`, in order, and a nil error (given fuel for `len(rs) + 1` loop
steps), and `SelectAllIDs` returns exactly the identifiers `Key().ID` of `rs`,
in order, and a nil error, when every identifier has the requested type. -/
theorem C7_unbounded_collects_everything {ρ : Type} (reader : Reader ρ) (s : ρ)
    (rs : List Record) (e : GoError) (hy : Yields reader s rs e)
    (he : errorsIs e ErrNoMoreRecords = true) (hlen : (rs.length : Int) < MaxInt) :
    (∀ fuel, rs.length < fuel →
        (SelectAllRecords fuel (some reader) (-1) s).map (fun run => run.out)
          = some (Ret.ret (rs, none))) ∧
      (∀ (τ : Type) (asT : IDValue → Option τ) (ids : List τ),
        rs.map (recordID asT) = ids.map Ret.ret →
          (SelectAllIDs asT (some reader) (-1) s).out = Ret.ret (ids, none)) := by
  constructor
  · intro fuel hfuel
    rw [SelectAllRecords_drain reader s rs e (-1) fuel hy hlen (Or.inl (by decide)) hfuel]
    simp [nextError, he]
  · intro τ asT ids hids
    rw [SelectAllIDs_drain asT reader s rs ids e (-1) hy hlen (Or.inl (by decide)) hids]
    simp [nextError, he]

/-- Witness of C7: a reader that yields three records and then
`ErrNoMoreRecords`. -/
theorem C7_witness_three_records :
    (∀ fuel, threeRecords.length < fuel →
        (SelectAllRecords fuel (some threeRecordReader) (-1) 0).map (fun run => run.out)
          = some (Ret.ret (threeRecords, none))) ∧
      (∀ (τ : Type) (asT : IDValue → Option τ) (ids : List τ),
        threeRecords.map (recordID asT) = ids.map Ret.ret →
          (SelectAllIDs asT (some threeRecordReader) (-1) 0).out = Ret.ret (ids, none)) :=
  C7_unbounded_collects_everything threeRecordReader 0 threeRecords ErrNoMoreRecords
    ⟨rfl, rfl, rfl, rfl⟩ (by decide) (by decide)

/-- C8 (code defect): `reader.Close()` is called only on the path that leaves the
loop because the limit is reached; the `return` taken when `Next` fails skips
it. On a reader that yields three records and then `ErrNoMoreRecords`, drained
with limit `-1`, both helpers return the three items and a nil error after four
calls of `Next` and no call of `Close`. -/
theorem C8_close_skipped_when_reader_exhausted :
    (SelectAllRecords 5 (some threeRecordReader) (-1) 0).map
        (fun run => (run.out, run.calls, run.calls.count ReaderCall.Close))
        = some (Ret.ret (threeRecords, none),
            [ReaderCall.Next, ReaderCall.Next, ReaderCall.Next, ReaderCall.Next], 0) ∧
      (SelectAllIDs IDValue.asString (some threeRecordReader) (-1) 0).out
        = Ret.ret (["a", "b", "c"], none) ∧
      (SelectAllIDs IDValue.asString (some threeRecordReader) (-1) 0).calls
        = [ReaderCall.Next, ReaderCall.Next, ReaderCall.Next, ReaderCall.Next] ∧
      (SelectAllIDs IDValue.asString (some threeRecordReader) (-1) 0).calls.count
        ReaderCall.Close = 0 := by
  decide

/-- C9 (code defect): with limit `0` the loop `for ; limit > 0; limit--` of
`SelectAllIDs` does not run at all: on a reader holding three records it
returns no identifier, after no call of `Next` (only `Close`), whereas
`SelectAllRecords` with limit `0` drains the same reader. -/
theorem C9_selectAllIDs_limit_zero_reads_nothing :
    (SelectAllIDs IDValue.asString (some threeRecordReader) 0 0).out
        = Ret.ret ([], none) ∧
      (SelectAllIDs IDValue.asString (some threeRecordReader) 0 0).calls
        = [ReaderCall.Close] ∧
      (SelectAllRecords 5 (some threeRecordReader) 0 0).map
        (fun run => (run.out, run.calls.count ReaderCall.Next))
        = some (Ret.ret (threeRecords, none), 4) := by
  decide

/-- C10: let a reader yield the records `rs` (fewer than `math.MaxInt`) and then
fail with `e` on the next call of `Next`, a call the limit still allows. Both
helpers stop there: the calls made on the reader are exactly these
`len(rs) + 1` calls of `Next`, and the error returned is `e` itself when `e` is
not the no-more-records signal, and nil when it is. -/
theorem C10_next_error_returned_as_is {ρ : Type} (reader : Reader ρ) (s : ρ)
    (rs : List Record) (e : GoError) (limit : Int) (hy : Yields reader s rs e)
    (hlen : (rs.length : Int) < MaxInt) :
    (limit ≤ 0 ∨ (rs.length : Int) < limit → ∀ fuel, rs.length < fuel →
        SelectAllRecords fuel (some reader) limit s =
          some ⟨Ret.ret (rs, if errorsIs e ErrNoMoreRecords then none else some e),
            afterNexts reader (rs.length + 1) s,
            List.replicate (rs.length + 1) ReaderCall.Next⟩) ∧
      (limit < 0 ∨ (rs.length : Int) < limit →
        ∀ (τ : Type) (asT : IDValue → Option τ) (ids : List τ),
          rs.map (recordID asT) = ids.map Ret.ret →
          SelectAllIDs asT (some reader) limit s =
            ⟨Ret.ret (ids, if errorsIs e ErrNoMoreRecords then none else some e),
              afterNexts reader (rs.length + 1) s,
              List.replicate (rs.length + 1) ReaderCall.Next⟩) := by
  constructor
  · intro hlim fuel hfuel
    exact SelectAllRecords_drain reader s rs e limit fuel hy hlen hlim hfuel
  · intro hlim τ asT ids hids
    exact SelectAllIDs_drain asT reader s rs ids e limit hy hlen hlim hids

/-- Witness of C10: a reader that yields two records and then a connection error,
read with limit 10; both helpers return that very error after three calls of
`Next`. -/
theorem C10_witness_connection_lost :
    (SelectAllRecords 3 (some brokenReader) 10 0).map (fun run => (run.out, run.calls))
        = some (Ret.ret (threeRecords.take 2, some (GoError.new "connection lost")),
            [ReaderCall.Next, ReaderCall.Next, ReaderCall.Next]) ∧
      (SelectAllIDs IDValue.asString (some brokenReader) 10 0).out
        = Ret.ret (["a", "b"], some (GoError.new "connection lost")) ∧
      (SelectAllIDs IDValue.asString (some brokenReader) 10 0).calls
        = [ReaderCall.Next, ReaderCall.Next, ReaderCall.Next] := by
  have h := C10_next_error_returned_as_is brokenReader 0 (threeRecords.take 2)
    (GoError.new "connection lost") 10 ⟨rfl, rfl, rfl⟩ (by decide)
  have h1 := h.1 (Or.inr (by decide)) 3 (by decide)
  have h2 := h.2 (Or.inr (by decide)) String IDValue.asString ["a", "b"] (by decide)
  refine ⟨?_, ?_, ?_⟩
  · rw [h1]; decide
  · rw [h2]; decide
  · rw [h2]; decide

/-! ## `ReadAll` -/

theorem readAllLoop_drops {ρ : Type} (reader : Reader ρ) (limit : Int) :
    ∀ (rs : List Record) (n : Nat) (i : Int) (s : ρ) (records : List Record)
      (err : Option GoError) (calls : List ReaderCall),
      Yields reader s rs ErrNoMoreRecords → rs.length < n → i + rs.length < limit →
      readAllLoop reader limit n i s records err calls =
        ⟨Ret.ret (records, some ErrNoMoreRecords), afterNexts reader (rs.length + 1) s,
          calls ++ List.replicate (rs.length + 1) ReaderCall.Next⟩ := by
  intro rs
  induction rs with
  | nil =>
    intro n i s records err calls hy hn hlim
    obtain ⟨m, rfl⟩ : ∃ m, n = m + 1 := ⟨n - 1, by simp at hn; omega⟩
    have hx : (reader.Next s).1.2 = some ErrNoMoreRecords := hy
    have hc : ¬ i ≥ limit := by simp at hlim; omega
    simp [readAllLoop, hc, hx, afterNexts]
  | cons r rs ih =>
    intro n i s records err calls hy hn hlim
    obtain ⟨m, rfl⟩ : ∃ m, n = m + 1 := ⟨n - 1, by simp at hn; omega⟩
    obtain ⟨hx, hrest⟩ := hy
    have h2 : (reader.Next s).1.2 = none := by rw [hx]
    have hc : ¬ i ≥ limit := by simp at hlim; omega
    have hm : rs.length < m := by simp at hn; omega
    have hlim2 : (i + 1) + rs.length < limit := by simp at hlim; omega
    simp only [readAllLoop, hc, if_false, h2]
    rw [ih m _ _ _ _ _ hrest hm hlim2]
    simp [afterNexts, List.replicate_succ]

/-- What `ReadAll` does with a reader that yields `rs` and then `ErrNoMoreRecords`,
read without limit: every yielded record is dropped and the sentinel is
returned as the error. -/
theorem ReadAll_unbounded_drops {ρ : Type} (reader : Reader ρ) (s : ρ) (rs : List Record)
    (limit : Int) (hy : Yields reader s rs ErrNoMoreRecords) (hlimit : limit ≤ 0)
    (hlen : (rs.length : Int) < MaxInt64) :
    (ReadAll reader limit s).out = Ret.ret ([], some ErrNoMoreRecords) := by
  have h := readAllLoop_drops reader MaxInt64 rs MaxInt64.toNat 0 s [] none [] hy
    (by omega) (by omega)
  simp only [ReadAll, hlimit, if_true]
  rw [h]

/-- C11 (code defect): `ReadAll` appends to `records` only inside
`if err != nil`, so a record that `Next` yields with a nil error is dropped, and
it leaves the loop on `ErrNoMoreRecords` with `err` still set. On a reader that
yields three records and then `ErrNoMoreRecords` it returns no record and the
error `ErrNoMoreRecords` for the limits `-1` and `0`, and no record (after two
calls of `Next`) for the limit `2`. -/
theorem C11_readAll_returns_no_record :
    (ReadAll threeRecordReader (-1) 0).out = Ret.ret ([], some ErrNoMoreRecords) ∧
      (ReadAll threeRecordReader 0 0).out = Ret.ret ([], some ErrNoMoreRecords) ∧
      (ReadAll threeRecordReader 2 0).out = Ret.ret ([], none) ∧
      (ReadAll threeRecordReader 2 0).calls = [ReaderCall.Next, ReaderCall.Next] := by
  decide

/-! ## Key paths -/

theorem pathLoop_eq (sprint : IDValue → String) :
    ∀ (k : Key) (s : List String), k.pathLoop sprint s = s ++ (k.specPath sprint).reverse := by
  intro k
  induction k with
  | root kind id => intro s; simp [Key.pathLoop, Key.specPath]
  | child parent kind id ih => intro s; simp [Key.pathLoop, Key.specPath, ih]

theorem specPath_eq_chain (sprint : IDValue → String) (k : Key) :
    k.specPath sprint = (k.chain.reverse.map fun a => [a.kind, sprint a.ID]).flatten := by
  induction k with
  | root kind id => simp [Key.specPath, Key.chain, Key.kind, Key.ID]
  | child parent kind id ih => simp [Key.specPath, Key.chain, Key.kind, Key.ID, ih]

theorem Level_eq_chain (k : Key) : k.Level + 1 = (k.chain.length : Int) := by
  induction k with
  | root kind id => simp [Key.Level, Key.chain]
  | child parent kind id ih => simp [Key.Level, Key.chain]; omega

/-- C12: for every valid key, `String()` is the `/`-joined sequence
`kind0, id0, ..., kindn, idn` from the root down to the key, which is the list of
(kind, id) pairs of the chain from leaf to root, reversed; and `Level()` is the
number of keys in the chain minus one, so `n` for a chain `k0, ..., kn` and `0`
for a root. -/
theorem C12_string_is_root_to_leaf_path (sprint : IDValue → String) (k : Key)
    (hvalid : k.Validate = none) :
    k.String sprint = Ret.ret (Join (k.specPath sprint) "/") ∧
      k.specPath sprint = (k.chain.reverse.map fun a => [a.kind, sprint a.ID]).flatten ∧
      k.Level + 1 = (k.chain.length : Int) := by
  refine ⟨?_, specPath_eq_chain sprint k, Level_eq_chain k⟩
  simp [Key.String, hvalid, ReverseStringsJoin, pathLoop_eq]

/-! ## Record states -/

theorem state_ne_Unpopulated_iff (v : record) : v.state ≠ LoadState.Unpopulated ↔ v.err ≠ none := by
  unfold record.state
  cases h : v.err with
  | none => simp
  | some e =>
    by_cases h1 : e = NoError
    · simp [h1]
    · by_cases h2 : IsNotFound (some e) = true <;> simp [h1, h2]

theorem apply_err_ne_none (v : record) (op : RecordOp) (h : v.err ≠ none) :
    (v.apply op).err ≠ none := by
  cases op with
  | SetError err => cases err <;> simp [record.apply, record.SetError]
  | MarkAsChanged => simpa [record.apply, record.MarkAsChanged] using h
  | Key => exact h
  | Error => exact h
  | Exists => exact h
  | Data => exact h
  | HasChanged => exact h

theorem applyAll_err_ne_none (ops : List RecordOp) :
    ∀ v : record, v.err ≠ none → (v.applyAll ops).err ≠ none := by
  induction ops with
  | nil => intro v h; exact h
  | cons op rest ih =>
    intro v h
    exact ih (v.apply op) (apply_err_ne_none v op h)

theorem SetError_err_ne_none (v : record) (e : Option GoError) : (v.SetError e).err ≠ none := by
  cases e <;> simp [record.SetError]

/-- Witness of C12 at the key `users/u1/orders/7`. -/
theorem C12_witness_order_key :
    orderKey.String sprintPlain = Ret.ret "users/u1/orders/7" ∧ orderKey.Level = 1 := by
  have h := C12_string_is_root_to_leaf_path sprintPlain orderKey (by decide)
  refine ⟨h.1.trans (by decide), ?_⟩
  have h3 := h.2.2
  have hl : (orderKey.chain.length : Int) = 2 := by decide
  omega

/-- C18 (as stated, refuted): `NoError` is an error value that is neither nil nor
a not-found error, yet after `SetError(NoError)` the call `Data()` returns the
payload: the record is Found, not Errored. -/
theorem C18_data_after_setError_NoError :
    IsNotFound (some NoError) = false ∧
      (testRecord.SetError (some NoError)).Data = Ret.ret (Any.str "o") := by
  decide

/-- C18 (amended): `Data()` returns the stored payload when the record is Found or
NotFound and panics when it is Errored; and the record is Errored, with `Data()`
panicking, after `SetError(e)` for every `e` that is not nil, not the marker
`NoError` and not a not-found error. -/
theorem C18_data_by_state (v : record) :
    (v.state = LoadState.Found ∨ v.state = LoadState.NotFound → v.Data = Ret.ret v.data) ∧
      (v.state = LoadState.Errored → v.Data = Ret.panicked dataPanic) ∧
      (∀ e : GoError, e ≠ NoError → IsNotFound (some e) = false →
        (v.SetError (some e)).state = LoadState.Errored ∧
          (v.SetError (some e)).Data = Ret.panicked dataPanic) := by
  refine ⟨?_, ?_, ?_⟩
  · unfold record.state record.Data
    cases h : v.err with
    | none => simp
    | some e =>
      by_cases h1 : e = NoError
      · simp [h1]
      · by_cases h2 : IsNotFound (some e) = true <;> simp [h1, h2]
  · unfold record.state record.Data
    cases h : v.err with
    | none => simp
    | some e =>
      by_cases h1 : e = NoError
      · simp [h1]
      · by_cases h2 : IsNotFound (some e) = true <;> simp [h1, h2]
  · intro e h1 h2
    simp [record.SetError, record.state, record.Data, h1, h2]

/-- Witness of C18 (amended): a Found record returns its payload and a record
that was given a connection error panics. -/
theorem C18_witness_found_and_errored :
    (testRecord.SetError none).Data = Ret.ret (Any.str "o") ∧
      (testRecord.SetError (some (GoError.new "connection lost"))).Data
        = Ret.panicked dataPanic :=
  ⟨(C18_data_by_state (testRecord.SetError none)).1 (Or.inl (by decide)),
    ((C18_data_by_state testRecord).2.2 (GoError.new "connection lost") (by decide)
      (by decide)).2⟩

/-- C19 (as stated, refuted): `NoError` is an error value that is neither nil nor
a not-found error, yet after `SetError(NoError)` the record is Found and
`Error()` returns nil, not the error it was given. -/
theorem C19_error_after_setError_NoError :
    IsNotFound (some NoError) = false ∧
      (testRecord.SetError (some NoError)).Error = none ∧
      (testRecord.SetError (some NoError)).state = LoadState.Found := by
  decide

/-- C19 (amended): after `SetError(e)` with `e` not nil, not the marker `NoError`
and not a not-found error, the record is Errored and `Error()` returns `e`
itself; and `Error()` returns nil exactly when the record is Unpopulated, Found
or NotFound. -/
theorem C19_error_by_state (v : record) :
    (∀ e : GoError, e ≠ NoError → IsNotFound (some e) = false →
        (v.SetError (some e)).state = LoadState.Errored ∧
          (v.SetError (some e)).Error = some e) ∧
      (v.Error = none ↔
        v.state = LoadState.Unpopulated ∨ v.state = LoadState.Found ∨
          v.state = LoadState.NotFound) := by
  constructor
  · intro e h1 h2
    simp [record.SetError, record.state, record.Error, h1, h2]
  · unfold record.state record.Error
    cases h : v.err with
    | none => simp [IsNotFound]
    | some e =>
      by_cases h1 : e = NoError
      · simp [h1]
      · by_cases h2 : IsNotFound (some e) = true <;> simp [h1, h2]

/-- Witness of C19 (amended): a record that was given a connection error returns
that error, and a Found record returns nil. -/
theorem C19_witness_errored_and_found :
    (testRecord.SetError (some (GoError.new "connection lost"))).Error
        = some (GoError.new "connection lost") ∧
      (testRecord.SetError none).Error = none :=
  ⟨((C19_error_by_state testRecord).1 (GoError.new "connection lost") (by decide)
      (by decide)).2,
    (C19_error_by_state (testRecord.SetError none)).2.mpr (Or.inr (Or.inl (by decide)))⟩

/-- C20: once `SetError` has been called, with any argument, then after any
further sequence of `SetError`, `MarkAsChanged` and read accessors the error
slot is not nil and the record is Found, NotFound or Errored; and the records
made by `NewRecord`, `NewRecordWithData` and `NewRecordWithoutKey` are
Unpopulated. -/
theorem C20_never_back_to_unpopulated (v : record) (e : Option GoError)
    (ops : List RecordOp) (key : Key) (data : Any) :
    ((v.SetError e).applyAll ops).err ≠ none ∧
      (((v.SetError e).applyAll ops).state = LoadState.Found ∨
        ((v.SetError e).applyAll ops).state = LoadState.NotFound ∨
        ((v.SetError e).applyAll ops).state = LoadState.Errored) ∧
      (∀ r, NewRecord (some key) = Ret.ret r → r.state = LoadState.Unpopulated) ∧
      (∀ r, NewRecordWithData (some key) data = Ret.ret r →
        r.state = LoadState.Unpopulated) ∧
      (NewRecordWithoutKey data).state = LoadState.Unpopulated := by
  have herr := applyAll_err_ne_none ops (v.SetError e) (SetError_err_ne_none v e)
  have hst := (state_ne_Unpopulated_iff _).mpr herr
  refine ⟨herr, ?_, ?_, ?_, rfl⟩
  · cases hs : ((v.SetError e).applyAll ops).state with
    | Unpopulated => exact absurd hs hst
    | Found => simp
    | NotFound => simp
    | Errored => simp
  · intro r hr
    unfold NewRecord newRecord at hr
    cases hv : key.Validate with
    | some err => simp [hv] at hr
    | none =>
      simp [hv] at hr
      rw [← hr]; rfl
  · intro r hr
    unfold NewRecordWithData newRecord at hr
    cases hv : key.Validate with
    | some err => simp [hv] at hr
    | none =>
      simp [hv] at hr
      rw [← hr]; rfl

/-- Witness of C20: a record that was Found, then given an error, marked and
read, has a non-nil error slot, and a record fresh from `NewRecord` is
Unpopulated. -/
theorem C20_witness_sequence :
    ((testRecord.SetError none).applyAll
        [RecordOp.SetError (some (GoError.new "connection lost")), RecordOp.MarkAsChanged,
          RecordOp.Error, RecordOp.SetError none]).err ≠ none ∧
      (⟨some orderKey, none, false, Any.nil⟩ : record).state = LoadState.Unpopulated :=
  ⟨(C20_never_back_to_unpopulated testRecord none
      [RecordOp.SetError (some (GoError.new "connection lost")), RecordOp.MarkAsChanged,
        RecordOp.Error, RecordOp.SetError none] orderKey Any.nil).1,
    (C20_never_back_to_unpopulated testRecord none [] orderKey Any.nil).2.2.1
      ⟨some orderKey, none, false, Any.nil⟩ (by decide)⟩

/-! ## Queries -/

theorem fillConditions_eq :
    ∀ (cs pre : List Condition) (i : Nat), pre.length = i + 1 →
      fillConditions (pre ++ List.replicate cs.length Condition.nil) i cs = pre ++ cs := by
  intro cs
  induction cs with
  | nil => intro pre i _; simp [fillConditions]
  | cons c rest ih =>
    intro pre i hpre
    have hset : (pre ++ List.replicate (c :: rest).length Condition.nil).set (i + 1) c
        = (pre ++ [c]) ++ List.replicate rest.length Condition.nil := by
      rw [← hpre]
      simp [List.replicate_succ]
    simp only [fillConditions, hset]
    rw [ih (pre ++ [c]) (i + 1) (by simp [hpre])]
    simp

theorem groupSlots_eq (w : Condition) (cs : List Condition) : groupSlots w cs = w :: cs := by
  have h := fillConditions_eq cs [w] 0 rfl
  simpa [groupSlots, List.replicate_succ] using h

theorem writeCommaSeparated_eq :
    ∀ (es : List Expression) (w : String) (i : Nat),
      writeCommaSeparated w i es =
        w ++ (match es with
          | [] => ""
          | _ => (if i > 0 then ", " else "") ++ Join (es.map fun e => e.text) ", ") := by
  intro es
  induction es with
  | nil => intro w i; simp [writeCommaSeparated]
  | cons e rest ih =>
    intro w i
    simp only [writeCommaSeparated]
    rw [ih]
    cases rest with
    | nil =>
      by_cases hi : i > 0 <;> simp [hi, Join, String.append_assoc]
    | cons e2 rest2 =>
      by_cases hi : i > 0 <;> simp [hi, Join, String.append_assoc]

theorem writeOrderBy_eq (w : String) (es : List Expression) :
    writeOrderBy w es = w ++ specOrderBy es := by
  cases es with
  | nil => simp [writeOrderBy, specOrderBy]
  | cons e rest =>
    simp [writeOrderBy, specOrderBy, writeCommaSeparated_eq, String.append_assoc]

theorem writeGroupBy_eq (w : String) (es : List Expression) :
    writeGroupBy w es = w ++ specGroupBy es := by
  cases es with
  | nil => simp [writeGroupBy, specGroupBy]
  | cons e rest =>
    simp [writeGroupBy, specGroupBy, writeCommaSeparated_eq, String.append_assoc]

theorem foldl_lines_eq :
    ∀ (es : List Expression) (w : String),
      es.foldl (fun w col => w ++ "\n\t" ++ col.text) w
        = w ++ Concat (es.map fun col => "\n\t" ++ col.text) := by
  intro es
  induction es with
  | nil => intro w; simp [Concat]
  | cons e rest ih =>
    intro w
    simp only [List.foldl_cons, List.map_cons, Concat]
    rw [ih]
    simp [String.append_assoc]

theorem writeColumns_eq (limit : Int) (columns : List Expression) :
    writeColumns (writeSelectTop limit) columns = specHead limit columns := by
  have htop : writeSelectTop limit
      = "SELECT" ++ (if limit > 0 then " TOP " ++ toString limit else "") := by
    unfold writeSelectTop Itoa
    by_cases h : limit > 0 <;> simp [h]
  unfold specHead
  rw [← htop]
  match columns with
  | [] => rfl
  | [c] => simp only [writeColumns, String.append_assoc]
  | c1 :: c2 :: rest =>
    simp only [writeColumns]
    exact foldl_lines_eq _ _

theorem is1liner_iff (columns : List Expression) (w : Condition) :
    is1liner columns w = true ↔ specOneLiner columns w := by
  unfold is1liner specOneLiner
  cases w <;> simp [Condition.isNil, Condition.isComparison]

theorem writeFrom_eq (sprint : IDValue → String) (b : Bool) (w : String)
    (from_ : Option CollectionRef) (f : String)
    (h : fromClause sprint (layoutSep b) from_ = Ret.ret f) :
    writeFrom sprint b w from_ = Ret.ret (w ++ f) := by
  cases from_ with
  | none =>
    injection h with h
    subst h
    simp only [writeFrom, String.append_empty]
  | some ref =>
    simp only [fromClause] at h
    simp only [writeFrom]
    cases hp : ref.Path sprint with
    | panicked m => rw [hp] at h; exact absurd h (by simp)
    | ret p =>
      rw [hp] at h
      injection h with h
      subst h
      cases b <;> simp only [layoutSep, Bool.false_eq_true, if_false, if_true,
        String.append_assoc]

theorem writeWhere_eq (b : Bool) (w : String) (c : Condition) (t : String)
    (h : whereClause (layoutSep b) c = Ret.ret t) :
    writeWhere b w c = Ret.ret (w ++ t) := by
  by_cases hnil : c = Condition.nil
  · subst hnil
    injection h with h
    subst h
    simp only [writeWhere, Condition.isNil, if_true, String.append_empty]
  · have hn : c.isNil = false := by
      cases c <;> simp_all [Condition.isNil]
    have hw : whereClause (layoutSep b) c =
        match c.String with
        | .ret text => .ret (layoutSep b ++ ("WHERE " ++ text))
        | .panicked msg => .panicked msg := by
      cases c <;> first | exact absurd rfl hnil | rfl
    rw [hw] at h
    unfold writeWhere
    cases hs : c.String with
    | panicked m => rw [hs] at h; exact absurd h (by simp)
    | ret text =>
      rw [hs] at h
      injection h with h
      subst h
      cases b <;> simp only [hn, layoutSep, Bool.false_eq_true, if_false, if_true,
        String.append_assoc]

/-- The closed form of `theQuery.String` when the source path and the filter can
be rendered. -/
theorem theQuery_String_eq (sprint : IDValue → String) (q : theQuery) (f t : String)
    (hf : fromClause sprint (layoutSep (is1liner q.columns q.where_)) q.from_ = Ret.ret f)
    (ht : whereClause (layoutSep (is1liner q.columns q.where_)) q.where_ = Ret.ret t) :
    q.String sprint =
      Ret.ret (specHead q.limit q.columns ++ f ++ t ++ specOrderBy q.orderBy
        ++ specGroupBy q.groupBy) := by
  unfold theQuery.String
  simp only [writeFrom_eq sprint _ _ _ f hf, writeWhere_eq _ _ _ t ht, writeOrderBy_eq,
    writeGroupBy_eq, writeColumns_eq]

/-- The clause `GROUP BY` as `Select.String` writes it: every expression on a
line of its own. -/
theorem writeGroupByLines_eq (w : String) (es : List Expression) :
    writeGroupByLines w es = w ++ groupByLinesClause es := by
  cases es with
  | nil => simp [writeGroupByLines, groupByLinesClause]
  | cons e rest =>
    unfold groupByLinesClause
    have hpos : (e :: rest).length > 0 := Nat.succ_pos _
    simp only [writeGroupByLines, hpos, if_true]
    rw [foldl_lines_eq]
    simp only [String.append_assoc]

/-- The closed form of `Select.String` when the source path and the filter can be
rendered. -/
theorem Select_String_eq (sprint : IDValue → String) (q : Select) (f t : String)
    (hf : fromClause sprint (layoutSep (is1liner q.Columns q.Where)) q.From = Ret.ret f)
    (ht : whereClause (layoutSep (is1liner q.Columns q.Where)) q.Where = Ret.ret t) :
    q.String sprint =
      Ret.ret (specHead q.Limit q.Columns ++ f ++ t ++ groupByLinesClause q.GroupBy) := by
  unfold Select.String
  simp only [writeFrom_eq sprint _ _ _ f hf, writeWhere_eq _ _ _ t ht,
    writeGroupByLines_eq, writeColumns_eq]

theorem conditionStrings_of_map :
    ∀ (cs : List Condition) (ss : List String),
      cs.map Condition.String = ss.map Ret.ret → conditionStrings cs = Ret.ret ss := by
  intro cs
  induction cs with
  | nil =>
    intro ss h
    cases ss with
    | nil => rfl
    | cons s rest => simp at h
  | cons c rest ih =>
    intro ss h
    cases ss with
    | nil => simp at h
    | cons s srest =>
      simp only [List.map_cons, List.cons.injEq] at h
      simp only [conditionStrings, h.1, ih srest h.2]

theorem Join_cons (s : String) (ss : List String) (sep : String) :
    Join (s :: ss) sep = s ++ Concat (ss.map fun t => sep ++ t) := by
  induction ss generalizing s with
  | nil => simp [Join, Concat]
  | cons t rest ih =>
    simp only [Join, List.map_cons, Concat]
    rw [ih t]
    simp only [String.append_assoc]

theorem length_Concat (ss : List String) :
    (Concat ss).length = (ss.map String.length).sum := by
  induction ss with
  | nil => rfl
  | cons s rest ih => simp [Concat, String.length_append, ih]

theorem writeFrom_panic (sprint : IDValue → String) (b : Bool) (w : String)
    (from_ : Option CollectionRef) (m : String)
    (h : fromClause sprint (layoutSep b) from_ = Ret.panicked m) :
    writeFrom sprint b w from_ = Ret.panicked m := by
  cases from_ with
  | none => simp [fromClause] at h
  | some ref =>
    simp only [fromClause] at h
    simp only [writeFrom]
    cases hp : ref.Path sprint with
    | ret p => rw [hp] at h; simp at h
    | panicked m2 => rw [hp] at h; simpa using h

theorem writeWhere_panic (b : Bool) (w : String) (c : Condition) (m : String)
    (h : whereClause (layoutSep b) c = Ret.panicked m) :
    writeWhere b w c = Ret.panicked m := by
  cases c with
  | nil => simp [whereClause] at h
  | Comparison x y z => simp [whereClause, Condition.String] at h
  | other text => simp [whereClause, Condition.String] at h
  | GroupCondition op cs =>
    simp only [whereClause] at h
    simp only [writeWhere, Condition.isNil, Bool.false_eq_true, if_false]
    cases hs : (Condition.GroupCondition op cs).String with
    | ret text => rw [hs] at h; simp at h
    | panicked m2 => rw [hs] at h; simpa using h

theorem theQuery_String_cases (sprint : IDValue → String) (q : theQuery) :
    q.String sprint =
      match fromClause sprint (layoutSep (is1liner q.columns q.where_)) q.from_ with
      | .panicked msg => .panicked msg
      | .ret f =>
        match whereClause (layoutSep (is1liner q.columns q.where_)) q.where_ with
        | .panicked msg => .panicked msg
        | .ret t =>
          .ret (specHead q.limit q.columns ++ f ++ t ++ specOrderBy q.orderBy
            ++ specGroupBy q.groupBy) := by
  cases hf : fromClause sprint (layoutSep (is1liner q.columns q.where_)) q.from_ with
  | ret f =>
    cases ht : whereClause (layoutSep (is1liner q.columns q.where_)) q.where_ with
    | ret t => exact theQuery_String_eq sprint q f t hf ht
    | panicked m =>
      simp only [theQuery.String, writeFrom_eq sprint _ _ _ f hf, writeWhere_panic _ _ _ m ht]
  | panicked m =>
    simp only [theQuery.String, writeFrom_panic sprint _ _ _ m hf]

theorem Select_String_cases (sprint : IDValue → String) (q : Select) :
    q.String sprint =
      match fromClause sprint (layoutSep (is1liner q.Columns q.Where)) q.From with
      | .panicked msg => .panicked msg
      | .ret f =>
        match whereClause (layoutSep (is1liner q.Columns q.Where)) q.Where with
        | .panicked msg => .panicked msg
        | .ret t =>
          .ret (specHead q.Limit q.Columns ++ f ++ t ++ groupByLinesClause q.GroupBy) := by
  cases hf : fromClause sprint (layoutSep (is1liner q.Columns q.Where)) q.From with
  | ret f =>
    cases ht : whereClause (layoutSep (is1liner q.Columns q.Where)) q.Where with
    | ret t => exact Select_String_eq sprint q f t hf ht
    | panicked m =>
      simp only [Select.String, writeFrom_eq sprint _ _ _ f hf, writeWhere_panic _ _ _ m ht]
  | panicked m =>
    simp only [Select.String, writeFrom_panic sprint _ _ _ m hf]

/-- C13: `q.And(c1..cn)` and `q.Or(c1..cn)`, on `theQuery` and on `Select`, return
a query whose filter is a group with the operator `AND` (respectively `OR`) and
the children `[q's filter, c1, ..., cn]` in that order: the slice the code
builds has `n + 1` slots and the filter of `q` in the first. The receiver `q`
is passed by value and the code writes only to the new query and to the new
slice, so `q` is the same value after the call. -/
theorem C13_and_or_wrap_original_filter (q : theQuery) (sel : Select)
    (cs : List Condition) :
    (q.And cs).where_ = Condition.GroupCondition Operator.And (q.where_ :: cs) ∧
      (q.Or cs).where_ = Condition.GroupCondition Operator.Or (q.where_ :: cs) ∧
      (sel.And cs).Where = Condition.GroupCondition Operator.And (sel.Where :: cs) ∧
      (sel.Or cs).Where = Condition.GroupCondition Operator.Or (sel.Where :: cs) ∧
      (groupSlots q.where_ cs).length = cs.length + 1 ∧
      (groupSlots q.where_ cs).head? = some q.where_ ∧
      (groupSlots sel.Where cs).length = cs.length + 1 ∧
      (groupSlots sel.Where cs).head? = some sel.Where := by
  refine ⟨?_, ?_, ?_, ?_, ?_, ?_, ?_, ?_⟩
  · simp only [theQuery.And, theQuery.groupWithConditions, groupSlots_eq]
  · simp only [theQuery.Or, theQuery.groupWithConditions, groupSlots_eq]
  · simp only [Select.And, Select.groupWithConditions, groupSlots_eq]
  · simp only [Select.Or, Select.groupWithConditions, groupSlots_eq]
  · simp [groupSlots_eq]
  · simp [groupSlots_eq]
  · simp [groupSlots_eq]
  · simp [groupSlots_eq]

/-- C14: the value `is1liner` that the renderers compute is true exactly when the
query has at most one column and its filter is absent or a bare `Comparison`.
When that holds, `FROM` and `WHERE` are each written after a single space, and
otherwise each after a newline; this is so for `theQuery.String` and for
`Select.String`. `f` and `t` are the texts of the two clauses (empty for a
clause that is not set). -/
theorem C14_one_liner_layout (sprint : IDValue → String) (q : theQuery) (sel : Select)
    (f t : String) :
    (is1liner q.columns q.where_ = true ↔ specOneLiner q.columns q.where_) ∧
      (specOneLiner q.columns q.where_ →
        fromClause sprint " " q.from_ = Ret.ret f → whereClause " " q.where_ = Ret.ret t →
        q.String sprint = Ret.ret (specHead q.limit q.columns ++ f ++ t
          ++ specOrderBy q.orderBy ++ specGroupBy q.groupBy)) ∧
      (¬ specOneLiner q.columns q.where_ →
        fromClause sprint "\n" q.from_ = Ret.ret f → whereClause "\n" q.where_ = Ret.ret t →
        q.String sprint = Ret.ret (specHead q.limit q.columns ++ f ++ t
          ++ specOrderBy q.orderBy ++ specGroupBy q.groupBy)) ∧
      (specOneLiner sel.Columns sel.Where →
        fromClause sprint " " sel.From = Ret.ret f → whereClause " " sel.Where = Ret.ret t →
        sel.String sprint = Ret.ret (specHead sel.Limit sel.Columns ++ f ++ t
          ++ groupByLinesClause sel.GroupBy)) ∧
      (¬ specOneLiner sel.Columns sel.Where →
        fromClause sprint "\n" sel.From = Ret.ret f →
        whereClause "\n" sel.Where = Ret.ret t →
        sel.String sprint = Ret.ret (specHead sel.Limit sel.Columns ++ f ++ t
          ++ groupByLinesClause sel.GroupBy)) := by
  refine ⟨is1liner_iff _ _, ?_, ?_, ?_, ?_⟩
  · intro h hf ht
    have hb : is1liner q.columns q.where_ = true := (is1liner_iff _ _).mpr h
    exact theQuery_String_eq sprint q f t (by rw [hb]; exact hf) (by rw [hb]; exact ht)
  · intro h hf ht
    have hb : is1liner q.columns q.where_ = false := by
      cases hc : is1liner q.columns q.where_ with
      | false => rfl
      | true => exact absurd ((is1liner_iff _ _).mp hc) h
    exact theQuery_String_eq sprint q f t (by rw [hb]; exact hf) (by rw [hb]; exact ht)
  · intro h hf ht
    have hb : is1liner sel.Columns sel.Where = true := (is1liner_iff _ _).mpr h
    exact Select_String_eq sprint sel f t (by rw [hb]; exact hf) (by rw [hb]; exact ht)
  · intro h hf ht
    have hb : is1liner sel.Columns sel.Where = false := by
      cases hc : is1liner sel.Columns sel.Where with
      | false => rfl
      | true => exact absurd ((is1liner_iff _ _).mp hc) h
    exact Select_String_eq sprint sel f t (by rw [hb]; exact hf) (by rw [hb]; exact ht)

/-- Witness of C14: a query with one column and a `Comparison` filter renders on
one line, and a query with two columns and a group filter renders every column
and every clause on a line of its own. -/
theorem C14_witness_both_layouts :
    oneLineQuery.String sprintPlain
        = Ret.ret "SELECT name FROM [users] WHERE age > 18" ∧
      manyLineQuery.String sprintPlain
        = Ret.ret ("SELECT TOP 5\n\tname\n\tcity\nFROM [users]\nWHERE (age > 18ANDcity == Oslo)"
            ++ "\nORDER BY name, city\nGROUP BY city") ∧
      oneLineSelect.String sprintPlain
        = Ret.ret "SELECT name FROM [users] WHERE age > 18" ∧
      manyLineSelect.String sprintPlain
        = Ret.ret ("SELECT TOP 5\n\tname\n\tcity\nFROM [users]\nWHERE (age > 18ANDcity == Oslo)"
            ++ "\nGROUP BY \n\tcity") := by
  have h1 := C14_one_liner_layout sprintPlain oneLineQuery oneLineSelect
    " FROM [users]" " WHERE age > 18"
  have h2 := C14_one_liner_layout sprintPlain manyLineQuery manyLineSelect
    "\nFROM [users]" "\nWHERE (age > 18ANDcity == Oslo)"
  have hone : specOneLiner oneLineQuery.columns oneLineQuery.where_ :=
    ⟨by decide, Or.inr ⟨"age", ">", "18", rfl⟩⟩
  have hmany : ¬ specOneLiner manyLineQuery.columns manyLineQuery.where_ := by
    intro h
    exact absurd h.1 (by decide)
  have hones : specOneLiner oneLineSelect.Columns oneLineSelect.Where :=
    ⟨by decide, Or.inr ⟨"age", ">", "18", rfl⟩⟩
  have hmanys : ¬ specOneLiner manyLineSelect.Columns manyLineSelect.Where := by
    intro h
    exact absurd h.1 (by decide)
  refine ⟨?_, ?_, ?_, ?_⟩
  · rw [h1.2.1 hone (by decide) (by decide)]; decide
  · rw [h2.2.2.1 hmany (by decide) (by decide)]; decide
  · rw [h1.2.2.2.1 hones (by decide) (by decide)]; decide
  · rw [h2.2.2.2.2 hmanys (by decide) (by decide)]; decide

/-- C15: whenever `String()` returns, on `theQuery` and on `Select`, the text
begins with `SELECT`, then ` TOP <limit>` exactly when the limit is positive,
then ` *` for no column, a space and the column for one column, and a newline,
a tab and the column for each of several columns; and it does return whenever
the source path and the filter can be rendered. -/
theorem C15_select_top_columns (sprint : IDValue → String) (q : theQuery) (sel : Select) :
    (∀ s, q.String sprint = Ret.ret s → ∃ rest, s = specHead q.limit q.columns ++ rest) ∧
      (∀ s, sel.String sprint = Ret.ret s →
        ∃ rest, s = specHead sel.Limit sel.Columns ++ rest) ∧
      (∀ f t, fromClause sprint (layoutSep (is1liner q.columns q.where_)) q.from_ = Ret.ret f →
        whereClause (layoutSep (is1liner q.columns q.where_)) q.where_ = Ret.ret t →
        ∃ rest, q.String sprint = Ret.ret (specHead q.limit q.columns ++ rest)) ∧
      (∀ f t, fromClause sprint (layoutSep (is1liner sel.Columns sel.Where)) sel.From
          = Ret.ret f →
        whereClause (layoutSep (is1liner sel.Columns sel.Where)) sel.Where = Ret.ret t →
        ∃ rest, sel.String sprint = Ret.ret (specHead sel.Limit sel.Columns ++ rest)) := by
  refine ⟨?_, ?_, ?_, ?_⟩
  · intro s hs
    rw [theQuery_String_cases] at hs
    cases hf : fromClause sprint (layoutSep (is1liner q.columns q.where_)) q.from_ with
    | panicked m => rw [hf] at hs; simp at hs
    | ret f =>
      cases ht : whereClause (layoutSep (is1liner q.columns q.where_)) q.where_ with
      | panicked m => rw [hf, ht] at hs; simp at hs
      | ret t =>
        rw [hf, ht] at hs
        injection hs with hs
        exact ⟨f ++ t ++ specOrderBy q.orderBy ++ specGroupBy q.groupBy, by
          rw [← hs]; simp only [String.append_assoc]⟩
  · intro s hs
    rw [Select_String_cases] at hs
    cases hf : fromClause sprint (layoutSep (is1liner sel.Columns sel.Where)) sel.From with
    | panicked m => rw [hf] at hs; simp at hs
    | ret f =>
      cases ht : whereClause (layoutSep (is1liner sel.Columns sel.Where)) sel.Where with
      | panicked m => rw [hf, ht] at hs; simp at hs
      | ret t =>
        rw [hf, ht] at hs
        injection hs with hs
        exact ⟨f ++ t ++ groupByLinesClause sel.GroupBy, by
          rw [← hs]; simp only [String.append_assoc]⟩
  · intro f t hf ht
    exact ⟨f ++ t ++ specOrderBy q.orderBy ++ specGroupBy q.groupBy, by
      rw [theQuery_String_eq sprint q f t hf ht]; simp only [String.append_assoc]⟩
  · intro f t hf ht
    exact ⟨f ++ t ++ groupByLinesClause sel.GroupBy, by
      rw [Select_String_eq sprint sel f t hf ht]; simp only [String.append_assoc]⟩

/-- Witness of C15: the heads of the two sample queries. -/
theorem C15_witness_heads :
    (∃ rest, "SELECT name FROM [users] WHERE age > 18"
        = specHead oneLineQuery.limit oneLineQuery.columns ++ rest) ∧
      specHead oneLineQuery.limit oneLineQuery.columns = "SELECT name" ∧
      specHead manyLineQuery.limit manyLineQuery.columns = "SELECT TOP 5\n\tname\n\tcity" ∧
      specHead 0 [] = "SELECT *" :=
  ⟨(C15_select_top_columns sprintPlain oneLineQuery oneLineSelect).1 _ (by decide),
    by decide, by decide, by decide⟩

/-- C16: `theQuery.String` is the rendering of the query without its order and
group expressions (`SELECT`, `FROM`, `WHERE`), followed by the clause
`ORDER BY` and then by the clause `GROUP BY`; each of the two clauses is empty
when the query has no such expression and is otherwise the keyword on a new
line followed by the expressions joined by `, `. -/
theorem C16_order_by_then_group_by (sprint : IDValue → String) (q : theQuery) :
    q.String sprint =
        (match ({ q with orderBy := [], groupBy := [] } : theQuery).String sprint with
          | .ret s => .ret (s ++ specOrderBy q.orderBy ++ specGroupBy q.groupBy)
          | .panicked msg => .panicked msg) ∧
      specOrderBy [] = "" ∧ specGroupBy [] = "" ∧
      (∀ e es, specOrderBy (e :: es)
        = "\nORDER BY " ++ Join ((e :: es).map fun x => x.text) ", ") ∧
      (∀ e es, specGroupBy (e :: es)
        = "\nGROUP BY " ++ Join ((e :: es).map fun x => x.text) ", ") := by
  refine ⟨?_, rfl, rfl, fun _ _ => rfl, fun _ _ => rfl⟩
  rw [theQuery_String_cases sprint q,
    theQuery_String_cases sprint { q with orderBy := [], groupBy := [] }]
  cases hf : fromClause sprint (layoutSep (is1liner q.columns q.where_)) q.from_ with
  | panicked m => rfl
  | ret f =>
    cases ht : whereClause (layoutSep (is1liner q.columns q.where_)) q.where_ with
    | panicked m => rfl
    | ret t =>
      simp only [specOrderBy, specGroupBy, String.append_empty]

/-- C17: a group condition with operator `op` and children `c :: rest` whose own
renderings are `s` and `ss` renders as `(` + `s` + (`op` + the rendering, for
each child of `rest`) + `)`, which is `(` + `strings.Join` of the renderings
with the separator `op` + `)`: the operator is written once before every child
but the first, so `len(children) - 1` times, and nothing else is added. -/
theorem C17_group_condition_rendering (op : Operator) (c : Condition)
    (rest : List Condition) (s : String) (ss : List String)
    (hc : c.String = Ret.ret s) (hrest : rest.map Condition.String = ss.map Ret.ret) :
    (Condition.GroupCondition op (c :: rest)).String
        = Ret.ret ("(" ++ (s ++ Concat (ss.map fun t => op ++ t)) ++ ")") ∧
      (ss.map fun t => op ++ t).length = (c :: rest).length - 1 ∧
      s ++ Concat (ss.map fun t => op ++ t) = Join (s :: ss) op ∧
      (s ++ Concat (ss.map fun t => op ++ t)).length
        = s.length + (ss.map String.length).sum + ((c :: rest).length - 1) * op.length := by
  have hlen : ss.length = rest.length := by
    have := congrArg List.length hrest
    simpa using this.symm
  have hall : (c :: rest).map Condition.String = (s :: ss).map Ret.ret := by
    simp only [List.map_cons, hc, hrest]
  refine ⟨?_, ?_, (Join_cons s ss op).symm, ?_⟩
  · simp only [Condition.String, conditionStrings_of_map _ _ hall, Join_cons]
  · simp [hlen]
  · rw [String.length_append, length_Concat]
    have hsum : ∀ l : List String,
        ((l.map fun t => op ++ t).map String.length).sum
          = (l.map String.length).sum + l.length * op.length := by
      intro l
      induction l with
      | nil => simp
      | cons x xs ih =>
        simp only [List.map_cons, List.sum_cons, List.length_cons, String.length_append, ih]
        ring
    rw [hsum, hlen]
    simp
    ring

/-- Witness of C17: the group `(age > 18ANDcity == OsloANDx)`. -/
theorem C17_witness_three_children :
    (Condition.GroupCondition Operator.And
        [Condition.Comparison "age" ">" "18", Condition.Comparison "city" "==" "Oslo",
          Condition.other "x"]).String
      = Ret.ret "(age > 18ANDcity == OsloANDx)" := by
  have h := (C17_group_condition_rendering Operator.And (Condition.Comparison "age" ">" "18")
    [Condition.Comparison "city" "==" "Oslo", Condition.other "x"] "age > 18"
    ["city == Oslo", "x"] (by decide) (by decide)).1
  rw [h]
  decide

/-! ## Collection paths and key options -/

/-- C21: `Path()` of a collection without parent key is its name, and with a valid
parent key it is `parent.String() + "/" + name`. -/
theorem C21_collection_path (sprint : IDValue → String) (v : CollectionRef) :
    (v.Parent = none → v.Path sprint = Ret.ret v.Name) ∧
      (∀ parent, v.Parent = some parent → parent.Validate = none →
        ∃ s, parent.String sprint = Ret.ret s ∧
          v.Path sprint = Ret.ret (s ++ "/" ++ v.Name)) := by
  constructor
  · intro h
    simp only [CollectionRef.Path, h]
  · intro parent h hvalid
    refine ⟨ReverseStringsJoin (parent.pathLoop sprint []) "/", ?_, ?_⟩
    · simp only [Key.String, hvalid]
    · simp only [CollectionRef.Path, h, Key.String, hvalid]

/-- Witness of C21: the root collection `users` and the collection `orders` under
the key `users/u1`. -/
theorem C21_witness_root_and_nested :
    usersRef.Path sprintPlain = Ret.ret "users" ∧
      ordersRef.Path sprintPlain = Ret.ret "users/u1/orders" := by
  have h := C21_collection_path sprintPlain usersRef
  have h2 := C21_collection_path sprintPlain ordersRef
  refine ⟨h.1 rfl, ?_⟩
  obtain ⟨s, hs, hp⟩ := h2.2 (Key.root "users" (IDValue.str "u1")) rfl (by decide)
  rw [hp]
  have hs2 : (Key.root "users" (IDValue.str "u1")).String sprintPlain = Ret.ret "users/u1" := by
    decide
  rw [hs2] at hs
  injection hs with hs
  rw [← hs]
  decide

theorem setKeyOptions_eq_foldl :
    ∀ (options : List KeyOption) (key : Key),
      setKeyOptions key options = options.foldl (fun k option => option k) key := by
  intro options
  induction options with
  | nil => intro key; rfl
  | cons o rest ih => intro key; simp only [setKeyOptions, List.foldl_cons, ih]

theorem setKeyOptions_append (a b : List KeyOption) (key : Key) :
    setKeyOptions key (a ++ b) = setKeyOptions (setKeyOptions key a) b := by
  simp only [setKeyOptions_eq_foldl, List.foldl_append]

theorem ID_setID (key : Key) (id : IDValue) : (key.setID id).ID = id := by
  cases key <;> rfl

/-- C22: `NewKey(kind)` without options panics. With at least one option it
returns the key obtained from `Key{kind: kind}` (no ID, no parent) by applying
the options one after the other in call order, each once; so when the last two
options both set the ID, the key carries the ID of the later one. -/
theorem C22_newKey_applies_options_in_order (kind : String) (option : KeyOption)
    (rest : List KeyOption) (id1 id2 : IDValue) :
    NewKey kind [] = Ret.panicked "at least 1 child option should be specified" ∧
      NewKey kind (option :: rest)
        = Ret.ret ((option :: rest).foldl (fun k o => o k) (Key.root kind IDValue.nil)) ∧
      (Key.root kind IDValue.nil).ID = IDValue.nil ∧
      (Key.root kind IDValue.nil).Parent = none ∧
      (∃ key, NewKey kind (rest ++ [WithID id1, WithID id2]) = Ret.ret key ∧
        key.ID = id2) := by
  refine ⟨rfl, ?_, rfl, rfl, ?_⟩
  · simp only [NewKey, List.length_cons, Nat.succ_ne_zero, if_false, setKeyOptions_eq_foldl]
  · refine ⟨setKeyOptions (Key.root kind IDValue.nil) (rest ++ [WithID id1, WithID id2]),
      ?_, ?_⟩
    · have hlen : (rest ++ [WithID id1, WithID id2]).length ≠ 0 := by simp
      simp only [NewKey, hlen, if_false]
    · rw [setKeyOptions_append]
      simp only [setKeyOptions, WithID, ID_setID]

/-- C23: the option built by `WithIDGenerator(ctx, g)`, applied to a key whose ID
is not nil, panics without calling `g`; applied to a key without ID it calls
`g` once, on the record `&record{key: key}`, and returns what `g` returned. -/
theorem C23_id_generator_option {σ : Type} (g : IDGenerator σ) (key : Key) (s : σ) :
    (key.ID ≠ IDValue.nil →
        (WithIDGenerator g key s).out = Ret.panicked idGeneratorPanic ∧
        (WithIDGenerator g key s).calls = [] ∧ (WithIDGenerator g key s).state = s) ∧
      (key.ID = IDValue.nil →
        (WithIDGenerator g key s).out
          = Ret.ret (g { key := some key, err := none, changed := false, data := Any.nil } s).1 ∧
        (WithIDGenerator g key s).calls
          = [{ key := some key, err := none, changed := false, data := Any.nil }] ∧
        (WithIDGenerator g key s).state
          = (g { key := some key, err := none, changed := false, data := Any.nil } s).2) := by
  constructor
  · intro h
    simp only [WithIDGenerator, h, ne_eq, not_false_eq_true, if_true, and_self]
  · intro h
    simp only [WithIDGenerator, h, ne_eq, not_true_eq_false, if_false, and_self]

/-- Witness of C23: a generator that counts its calls and fails, applied to a key
that has an ID and to a key that has none. -/
theorem C23_witness_with_and_without_id :
    (WithIDGenerator countingGenerator orderKey 0).out = Ret.panicked idGeneratorPanic ∧
      (WithIDGenerator countingGenerator orderKey 0).state = 0 ∧
      (WithIDGenerator countingGenerator (Key.root "users" IDValue.nil) 0).out
        = Ret.ret (some (GoError.new "no entropy")) ∧
      (WithIDGenerator countingGenerator (Key.root "users" IDValue.nil) 0).state = 1 :=
  ⟨((C23_id_generator_option countingGenerator orderKey 0).1 (by decide)).1,
    ((C23_id_generator_option countingGenerator orderKey 0).1 (by decide)).2.2,
    ((C23_id_generator_option countingGenerator (Key.root "users" IDValue.nil) 0).2 rfl).1,
    ((C23_id_generator_option countingGenerator (Key.root "users" IDValue.nil) 0).2 rfl).2.2⟩

/-! ## Transaction contexts -/

/-- C24: for every context `ctx` and transaction `tx`,
`GetTransaction(NewContextWithTransaction(ctx, tx))` is `tx` and
`GetNonTransactionalContext(NewContextWithTransaction(ctx, tx))` is `ctx`; and
in the `gaedb` driver the context that `RunInTransaction` builds from `c` is in
a transaction and `NonTransactionalContext` of it is `c`. -/
theorem C24_transaction_context_round_trip (ctx c : Context) (tx : Transaction) :
    GetTransaction (NewContextWithTransaction ctx tx) = Ret.ret (some tx) ∧
      GetNonTransactionalContext (NewContextWithTransaction ctx tx) = Ret.ret ctx ∧
      IsInTransaction (transactionalContext c) = Ret.ret true ∧
      NonTransactionalContext (transactionalContext c) = Ret.ret c := by
  refine ⟨?_, ?_, ?_, ?_⟩
  · simp [GetTransaction, NewContextWithTransaction, Context.Value]
  · simp [GetNonTransactionalContext, NewContextWithTransaction, Context.Value]
  · simp [IsInTransaction, transactionalContext, Context.Value]
  · simp [NonTransactionalContext, transactionalContext, Context.Value]

/-! ## Derived queries keep only the source -/

/-- C26: the query returned by `And` or `Or`, on `theQuery` and on `Select`, has
the source collection of `q` and nothing else of it: no column, no order and
group expression, limit and offset 0, no start cursor, no id kind and no result
factory. -/
theorem C26_derived_query_keeps_only_from (q : theQuery) (sel : Select)
    (operator : Operator) (cs : List Condition) :
    (q.groupWithConditions operator cs).from_ = q.from_ ∧
      (q.groupWithConditions operator cs).columns = [] ∧
      (q.groupWithConditions operator cs).orderBy = [] ∧
      (q.groupWithConditions operator cs).groupBy = [] ∧
      (q.groupWithConditions operator cs).limit = 0 ∧
      (q.groupWithConditions operator cs).offset = 0 ∧
      (q.groupWithConditions operator cs).startCursor = none ∧
      (q.groupWithConditions operator cs).idKind = 0 ∧
      (q.groupWithConditions operator cs).into = none ∧
      q.And cs = q.groupWithConditions Operator.And cs ∧
      q.Or cs = q.groupWithConditions Operator.Or cs ∧
      (sel.groupWithConditions operator cs).From = sel.From ∧
      (sel.groupWithConditions operator cs).Columns = [] ∧
      (sel.groupWithConditions operator cs).OrderBy = [] ∧
      (sel.groupWithConditions operator cs).GroupBy = [] ∧
      (sel.groupWithConditions operator cs).Limit = 0 ∧
      (sel.groupWithConditions operator cs).Into = none ∧
      sel.And cs = sel.groupWithConditions Operator.And cs ∧
      sel.Or cs = sel.groupWithConditions Operator.Or cs :=
  ⟨rfl, rfl, rfl, rfl, rfl, rfl, rfl, rfl, rfl, rfl, rfl, rfl, rfl, rfl, rfl, rfl, rfl, rfl,
    rfl⟩

/-! ## Entity holder keys -/

/-- What `getEntityHolderKey` reports: `ErrEmptyKind` for an empty kind and no
error for any other entity holder; the branch that makes `ErrKeyHasBothIds` is
never taken. -/
theorem getEntityHolderKey_err (h : EntityHolder) :
    (getEntityHolderKey h).err = if h.Kind = "" then some ErrEmptyKind else none := by
  unfold getEntityHolderKey
  by_cases hk : h.Kind = ""
  · simp [hk]
  · by_cases hi : h.IntID = 0 <;> by_cases hs : h.StrID = "" <;> simp [hk, hi, hs]

/-- C30 (code defect): for an entity holder of kind `User` with the int ID 7 and
the string ID `alice`, `getEntityHolderKey` reports no error and returns a key
that carries both identifiers, while `GetMulti` rejects the same holder. The
test `intID != 0 || strID != ""` holds whenever the key is not incomplete, so
the branch that reports `ErrKeyHasBothIds` cannot be reached. -/
theorem C30_both_ids_not_reported :
    getEntityHolderKey ⟨"User", 7, "alice"⟩
        = ⟨some ⟨"User", "alice", 7⟩, false, none⟩ ∧
      getMultiCheck ⟨"User", 7, "alice"⟩
        = some (GoError.new "intID != 0 && strID is NOT empty string") := by
  decide

/-! ## Insert with retry: every behaviour of the callbacks -/

theorem insertOutcome_shift {σ : Type} (cb : Callbacks σ) (r : record) (a : Int) (m : Nat)
    (s : σ) (calls : List Call) (j : Nat) (run : InsertRun σ)
    (h : InsertOutcome cb r a m (cb.exists_ (cb.generateID s).2).2
      (calls ++ [Call.generateID, Call.exists_]) j run) :
    InsertOutcome cb r a (m + 1) s calls (j + 1) run := by
  have hcalls : ∀ tail : List Call,
      calls ++ [Call.generateID, Call.exists_] ++ attemptCalls j ++ tail
        = calls ++ attemptCalls (j + 1) ++ tail := by
    intro tail
    simp [attemptCalls]
  have hcalls0 : calls ++ [Call.generateID, Call.exists_] ++ attemptCalls j
      = calls ++ attemptCalls (j + 1) := by
    simp [attemptCalls]
  rcases h with ⟨hj, he, hs, hc⟩ | ⟨hj, e, hg, he, hs, hc⟩ | ⟨hj, hg, e, hx, hn, he, hs, hc⟩ |
      ⟨hj, hg, e, hx, hn, he, hs, hc⟩
  · exact Or.inl ⟨by omega, he, hs, by rw [hc, hcalls0]⟩
  · exact Or.inr (Or.inl ⟨by omega, e, hg, he, hs, by rw [hc, hcalls]⟩)
  · exact Or.inr (Or.inr (Or.inl ⟨by omega, hg, e, hx, hn, he, hs, by rw [hc, hcalls]⟩))
  · exact Or.inr (Or.inr (Or.inr ⟨by omega, hg, e, hx, hn, he, hs, by rw [hc, hcalls]⟩))

theorem insertAttempts_outcome {σ : Type} (cb : Callbacks σ) (r : record) (a : Int) :
    ∀ (m : Nat) (s : σ) (calls : List Call),
      ∃ j, j ≤ m ∧ (∀ i, i < j → genResult cb s i = none ∧ existsResult cb s i = none) ∧
        InsertOutcome cb r a m s calls j (insertAttempts cb r a m s calls) := by
  intro m
  induction m with
  | zero =>
    intro s calls
    refine ⟨0, Nat.le_refl 0, fun i hi => absurd hi (Nat.not_lt_zero i), Or.inl ?_⟩
    simp [insertAttempts, afterAttempts, attemptCalls]
  | succ m ih =>
    intro s calls
    cases hg : (cb.generateID s).1 with
    | some e =>
      refine ⟨0, Nat.zero_le _, fun i hi => absurd hi (Nat.not_lt_zero i),
        Or.inr (Or.inl ⟨Nat.succ_pos m, e, hg, ?_, ?_, ?_⟩)⟩ <;>
        simp [insertAttempts, hg, afterAttempts, attemptCalls]
    | none =>
      cases hx : (cb.exists_ (cb.generateID s).2).1 with
      | some e =>
        cases hn : IsNotFound (some e) with
        | false =>
          refine ⟨0, Nat.zero_le _, fun i hi => absurd hi (Nat.not_lt_zero i),
            Or.inr (Or.inr (Or.inl ⟨Nat.succ_pos m, hg, e, hx, hn, ?_, ?_, ?_⟩))⟩ <;>
            simp [insertAttempts, hg, hx, hn, afterAttempts, attemptCalls]
        | true =>
          refine ⟨0, Nat.zero_le _, fun i hi => absurd hi (Nat.not_lt_zero i),
            Or.inr (Or.inr (Or.inr ⟨Nat.succ_pos m, hg, e, hx, hn, ?_, ?_, ?_⟩))⟩ <;>
            simp [insertAttempts, hg, hx, hn, afterAttempts, attemptCalls]
      | none =>
        obtain ⟨j, hj, hfound, hout⟩ :=
          ih (cb.exists_ (cb.generateID s).2).2 (calls ++ [Call.generateID, Call.exists_])
        have hstep : insertAttempts cb r a (m + 1) s calls
            = insertAttempts cb r a m (cb.exists_ (cb.generateID s).2).2
                (calls ++ [Call.generateID, Call.exists_]) := by
          simp only [insertAttempts, hg, hx]
        refine ⟨j + 1, Nat.succ_le_succ hj, ?_, ?_⟩
        · intro i hi
          cases i with
          | zero => exact ⟨hg, hx⟩
          | succ i => exact hfound i (by omega)
        · rw [hstep]
          exact insertOutcome_shift cb r a m s calls j _ hout

/-- C25: for every attempt bound `n` and every behaviour of the callbacks,
`InsertWithRandomID` returns, after some number `j ≤ max(n, 0)` of attempts on
which the generator succeeded and the check answered found, in one of four
ways: the attempts are used up; the generator fails on the next attempt and its
error is returned wrapped, with no check after it; the check fails on the next
attempt with another error; or the check reports not-found and `insert(r)` is
called, once, its result being returned unchanged. So the generator is called at
most `max(n, 0)` times, the check never more often than the generator, and
insert at most once. -/
theorem C25_insert_call_discipline {σ : Type} (cb : Callbacks σ) (r : record) (n : Int)
    (s : σ) :
    (∃ j : Nat, (j : Int) ≤ max n 0 ∧
        (∀ i, i < j → genResult cb s i = none ∧ existsResult cb s i = none) ∧
        InsertOutcome cb r n n.toNat s [] j (InsertWithRandomID cb r n s)) ∧
      (((InsertWithRandomID cb r n s).calls.count Call.generateID : Nat) : Int) ≤ max n 0 ∧
      (InsertWithRandomID cb r n s).calls.count Call.exists_
        ≤ (InsertWithRandomID cb r n s).calls.count Call.generateID ∧
      ((InsertWithRandomID cb r n s).calls.filter Call.isInsert).length ≤ 1 := by
  obtain ⟨j, hj, hfound, hout⟩ := insertAttempts_outcome cb r n n.toNat s []
  have hout' : InsertOutcome cb r n n.toNat s [] j (InsertWithRandomID cb r n s) := hout
  refine ⟨⟨j, by omega, hfound, hout'⟩, ?_⟩
  rcases hout' with ⟨hjm, _, _, hc⟩ | ⟨hjm, e, _, _, _, hc⟩ | ⟨hjm, _, e, _, _, _, _, hc⟩ |
      ⟨hjm, _, e, _, _, _, _, hc⟩
  · rw [hc]
    simp [count_generateID_attemptCalls, count_exists_attemptCalls,
      filter_isInsert_attemptCalls]
    omega
  · rw [hc]
    simp [count_generateID_attemptCalls, count_exists_attemptCalls,
      filter_isInsert_attemptCalls, Call.isInsert]
    omega
  · rw [hc]
    simp [count_generateID_attemptCalls, count_exists_attemptCalls,
      filter_isInsert_attemptCalls, Call.isInsert]
    omega
  · rw [hc]
    simp [count_generateID_attemptCalls, count_exists_attemptCalls,
      filter_isInsert_attemptCalls, Call.isInsert]
    omega

/-! ## Rendering a derived query -/

/-- The filter of a derived query renders when the filter of `q` and the added
conditions render: it is the group of their texts. -/
theorem derived_filter_renders (operator : Operator) (w : Condition) (cs : List Condition)
    (t : String) (ss : List String) (hw : w.String = Ret.ret t)
    (hcs : cs.map Condition.String = ss.map Ret.ret) :
    (Condition.GroupCondition operator (groupSlots w cs)).String
      = Ret.ret ("(" ++ Join (t :: ss) operator ++ ")") := by
  have hall : (w :: cs).map Condition.String = (t :: ss).map Ret.ret := by
    simp only [List.map_cons, hw, hcs]
  simp only [groupSlots_eq, Condition.String, conditionStrings_of_map _ _ hall]

/-- A derived query renders when `q` has a filter that renders, the added
conditions render and the path of the source collection renders. -/
theorem derived_query_renders (sprint : IDValue → String) (q : theQuery)
    (operator : Operator) (cs : List Condition) (f t : String) (ss : List String)
    (hf : fromClause sprint "\n" q.from_ = Ret.ret f) (hw : q.where_.String = Ret.ret t)
    (hcs : cs.map Condition.String = ss.map Ret.ret) :
    (q.groupWithConditions operator cs).String sprint
      = Ret.ret ("SELECT *" ++ f
          ++ ("\n" ++ ("WHERE " ++ ("(" ++ Join (t :: ss) operator ++ ")")))) := by
  have hgroup := derived_filter_renders operator q.where_ cs t ss hw hcs
  have h1 : is1liner (q.groupWithConditions operator cs).columns
      (q.groupWithConditions operator cs).where_ = false := rfl
  have hfrom : fromClause sprint
      (layoutSep (is1liner (q.groupWithConditions operator cs).columns
        (q.groupWithConditions operator cs).where_))
      (q.groupWithConditions operator cs).from_ = Ret.ret f := by
    rw [h1]; exact hf
  have hwhere : whereClause
      (layoutSep (is1liner (q.groupWithConditions operator cs).columns
        (q.groupWithConditions operator cs).where_))
      (q.groupWithConditions operator cs).where_
        = Ret.ret ("\n" ++ ("WHERE " ++ ("(" ++ Join (t :: ss) operator ++ ")"))) := by
    rw [h1]
    show whereClause "\n" (Condition.GroupCondition operator (groupSlots q.where_ cs)) = _
    simp only [whereClause, hgroup]
  rw [theQuery_String_eq sprint _ f _ hfrom hwhere]
  have hhead : specHead (q.groupWithConditions operator cs).limit
      (q.groupWithConditions operator cs).columns = "SELECT *" := by
    show specHead 0 [] = "SELECT *"
    decide
  have ho : specOrderBy (q.groupWithConditions operator cs).orderBy = "" := rfl
  have hg : specGroupBy (q.groupWithConditions operator cs).groupBy = "" := rfl
  rw [hhead, ho, hg]
  simp only [String.append_empty]

/-- C27 (code defect): `groupWithConditions` puts the filter of `q` into the first
slot of the group also when `q` has no filter, so the group of a query derived
from a query without filter starts with a nil condition, and rendering it calls
`String()` on nil: `String()` of the derived query and of its group filter
panic, for `theQuery` and for `Select`, although the added condition renders. -/
theorem C27_derived_from_unfiltered_query_panics :
    adultFilter.String = Ret.ret "age > 18" ∧
      (unfilteredQuery.And [adultFilter]).where_.String
        = Ret.panicked "invalid memory address or nil pointer dereference" ∧
      (unfilteredQuery.And [adultFilter]).String sprintPlain
        = Ret.panicked "invalid memory address or nil pointer dereference" ∧
      (unfilteredQuery.Or [adultFilter]).String sprintPlain
        = Ret.panicked "invalid memory address or nil pointer dereference" ∧
      (unfilteredSelect.And [adultFilter]).String sprintPlain
        = Ret.panicked "invalid memory address or nil pointer dereference" ∧
      (unfilteredSelect.Or [adultFilter]).String sprintPlain
        = Ret.panicked "invalid memory address or nil pointer dereference" := by
  decide

/-! ## `SelectAllIDs` against `SelectAllRecords` -/

theorem selectAllLoops_agree {ρ τ : Type} (reader : Reader ρ) (asT : IDValue → Option τ)
    (limit : Int) (hpos : 0 < limit)
    (hids : ∀ s, (reader.Next s).1.2 = none →
      ∃ id, recordID asT (reader.Next s).1.1 = Ret.ret id) :
    ∀ (fuel : Nat) (i : Int) (s : ρ) (records : List Record) (ids : List τ)
      (calls : List ReaderCall) (run : Run ρ (List Record × Option GoError)),
      records.map (recordID asT) = ids.map Ret.ret →
      selectAllRecordsLoop reader limit fuel i s records calls = some run →
      ∃ (records' : List Record) (ids' : List τ) (err : Option GoError),
        run.out = Ret.ret (records', err) ∧
        records'.map (recordID asT) = ids'.map Ret.ret ∧
        selectAllIDsLoop reader asT (limit - i).toNat s ids calls
          = ⟨Ret.ret (ids', err), run.state, run.calls⟩ := by
  intro fuel
  induction fuel with
  | zero => intro i s records ids calls run _ h; simp [selectAllRecordsLoop] at h
  | succ f ih =>
    intro i s records ids calls run hmap h
    by_cases hc : i < limit
    · have hc' : limit ≤ 0 ∨ i < limit := Or.inr hc
      obtain ⟨n, hn⟩ : ∃ n, (limit - i).toNat = n + 1 := ⟨(limit - i).toNat - 1, by omega⟩
      have hn' : (limit - (i + 1)).toNat = n := by omega
      cases h2 : (reader.Next s).1.2 with
      | some e =>
        simp only [selectAllRecordsLoop, hc', if_true, h2, Option.some.injEq] at h
        subst h
        refine ⟨records, ids, nextError e, rfl, hmap, ?_⟩
        rw [hn]
        simp only [selectAllIDsLoop, h2]
      | none =>
        obtain ⟨id, hid⟩ := hids s h2
        simp only [selectAllRecordsLoop, hc', if_true, h2] at h
        have hmap' : (records ++ [(reader.Next s).1.1]).map (recordID asT)
            = (ids ++ [id]).map Ret.ret := by
          simp only [List.map_append, hmap, List.map_cons, List.map_nil, hid]
        obtain ⟨records', ids', err, hout, hm, hloop⟩ :=
          ih (i + 1) _ _ (ids ++ [id]) _ run hmap' h
        refine ⟨records', ids', err, hout, hm, ?_⟩
        rw [hn]
        simp only [selectAllIDsLoop, h2, hid]
        rw [hn'] at hloop
        exact hloop
    · have hc' : ¬ (limit ≤ 0 ∨ i < limit) := by omega
      have hz : (limit - i).toNat = 0 := by omega
      simp only [selectAllRecordsLoop, hc', if_false, Option.some.injEq] at h
      subst h
      refine ⟨records, ids, (reader.Close s).1, rfl, hmap, ?_⟩
      rw [hz]
      simp only [selectAllIDsLoop]

/-- For every limit other than `0`: on a reader all of whose records carry an ID of
the requested type, whatever `SelectAllRecords` returns, `SelectAllIDs` makes
the same calls on the reader, leaves it in the same state and returns the same
error and the IDs of the same records. -/
theorem SelectAllIDs_projects_SelectAllRecords {ρ τ : Type} (reader : Reader ρ)
    (asT : IDValue → Option τ) (limit : Int) (s : ρ) (fuel : Nat)
    (run : Run ρ (List Record × Option GoError)) (hlimit : limit ≠ 0)
    (hids : ∀ s, (reader.Next s).1.2 = none →
      ∃ id, recordID asT (reader.Next s).1.1 = Ret.ret id)
    (hrun : SelectAllRecords fuel (some reader) limit s = some run) :
    ∃ (records : List Record) (ids : List τ) (err : Option GoError),
      run.out = Ret.ret (records, err) ∧
      records.map (recordID asT) = ids.map Ret.ret ∧
      SelectAllIDs asT (some reader) limit s = ⟨Ret.ret (ids, err), run.state, run.calls⟩ := by
  have hpos : 0 < adjustLimit limit := by
    rcases Int.lt_or_le limit 0 with h | h
    · rw [adjustLimit_of_neg limit h]; decide
    · rw [adjustLimit_of_nonneg limit h]; omega
  have h := selectAllLoops_agree reader asT (adjustLimit limit) hpos hids fuel 0 s [] [] []
    run rfl hrun
  simpa [SelectAllIDs] using h

/-- C28 (code defect): with limit `0` the two helpers part: on a reader that
yields three records with string IDs and then `ErrNoMoreRecords`,
`SelectAllRecords` calls `Next` four times and returns the three records, while
`SelectAllIDs` calls `Next` not at all and returns no ID. -/
theorem C28_limit_zero_breaks_projection :
    threeRecords.map (recordID IDValue.asString)
        = [Ret.ret "a", Ret.ret "b", Ret.ret "c"] ∧
      (SelectAllRecords 5 (some threeRecordReader) 0 0).map
        (fun run => (run.out, run.calls.count ReaderCall.Next))
        = some (Ret.ret (threeRecords, none), 4) ∧
      (SelectAllIDs IDValue.asString (some threeRecordReader) 0 0).out
        = Ret.ret ([], none) ∧
      (SelectAllIDs IDValue.asString (some threeRecordReader) 0 0).calls.count
        ReaderCall.Next = 0 := by
  decide

/-! ## The two renderers -/

/-- The two renderers agree on every query description without order and group
expressions. -/
theorem renderers_agree_without_group_by (sprint : IDValue → String) (q : Select)
    (horder : q.OrderBy = []) (hgroup : q.GroupBy = []) :
    q.String sprint = q.toTheQuery.String sprint := by
  rw [Select_String_cases, theQuery_String_cases]
  have h1 : q.toTheQuery.columns = q.Columns := rfl
  have h2 : q.toTheQuery.where_ = q.Where := rfl
  have h3 : q.toTheQuery.from_ = q.From := rfl
  have h4 : q.toTheQuery.limit = q.Limit := rfl
  have h5 : q.toTheQuery.orderBy = [] := horder
  have h6 : q.toTheQuery.groupBy = [] := hgroup
  rw [h1, h2, h3, h4, h5, h6, hgroup]
  cases fromClause sprint (layoutSep (is1liner q.Columns q.Where)) q.From with
  | panicked m => rfl
  | ret f =>
    cases whereClause (layoutSep (is1liner q.Columns q.Where)) q.Where with
    | panicked m => rfl
    | ret t =>
      simp only [groupByLinesClause, specOrderBy, specGroupBy, String.append_empty]

/-- C29 (code defect): for the same query description with one group expression
and no order expression, `Select.String` writes the group expression on a line
of its own after `GROUP BY ` while `theQuery.String` writes it on the line of
`GROUP BY`, so the two texts differ. -/
theorem C29_renderers_differ_on_group_by :
    manyLineSelect.OrderBy = [] ∧
      manyLineSelect.String sprintPlain
        = Ret.ret ("SELECT TOP 5\n\tname\n\tcity\nFROM [users]\nWHERE (age > 18ANDcity == Oslo)"
            ++ "\nGROUP BY \n\tcity") ∧
      manyLineSelect.toTheQuery.String sprintPlain
        = Ret.ret ("SELECT TOP 5\n\tname\n\tcity\nFROM [users]\nWHERE (age > 18ANDcity == Oslo)"
            ++ "\nGROUP BY city") ∧
      manyLineSelect.String sprintPlain ≠ manyLineSelect.toTheQuery.String sprintPlain := by
  decide

end Dalgo
